import Mathlib

/-!
# compression_benchmark: the benchmark harness of `main.go`

A shallow embedding of the harness: the sixteen codec adapters, the ratio pass
`compareCompressionCoefficients`, the speed pass `compareCompressionSpeeds` and the driver
`main`.  The codec libraries (`compress/zlib`, `compress/gzip`, `compress/lzw`,
`compress/flate`, `lz4`, `lzma`, `snappy`), the clock and the file system are collaborators
outside the repository; they enter as the parameters `Lib` and `Env`, and the `%.2f` float
formatter as the parameter `ff` of `render`.  A run is a function from the number of clock readings made so far to the events it
produces (adapter calls, clock readings, `Printf` calls), the new number of clock readings and
either a value or the panic that ended it.
-/

namespace CompressionBenchmark

/-! ## Data -/

/-- A Go `[]byte`. -/
abbrev Bytes := List (Fin 256)

/-- An `error` value returned by a library call. -/
abbrev LibError := String

/-- The argument of a Go `panic`: an `error` (`panic(err)`) or a string (`panic("...")`). -/
inductive Panic where
  | err (e : LibError)
  | msg (s : String)
  deriving DecidableEq, Repr

/-- A library writer constructed over a fresh `bytes.Buffer`: `Write`, `Close` (each returning
the new state and the error it reports) and the current contents of the buffer (`b.Bytes()`). -/
structure WriterApi where
  State : Type
  write : State → Bytes → State × Option LibError
  close : State → State × Option LibError
  bytes : State → Bytes

/-- A library reader over `bytes.NewReader(compressed)`: `readFrom` is `b.ReadFrom(r)` on a
fresh `bytes.Buffer` `b`, giving the new reader state, the contents of `b` afterwards
(`b.Bytes()`) and the error it reports; `close` is `r.Close()`. -/
structure ReaderApi where
  State : Type
  readFrom : State → State × Bytes × Option LibError
  close : State → Option LibError

/-- The codec libraries the adapters call.  A constructor that returns an `error` in Go has an
`Except` result here, one that does not has a plain result. -/
structure Lib where
  zlibWriter : WriterApi
  zlibNewWriterLevel : Int → Except LibError zlibWriter.State
  zlibReader : ReaderApi
  zlibNewReader : Bytes → Except LibError zlibReader.State
  gzipWriter : WriterApi
  gzipNewWriterLevel : Int → Except LibError gzipWriter.State
  gzipReader : ReaderApi
  gzipNewReader : Bytes → Except LibError gzipReader.State
  lzwWriter : WriterApi
  lzwNewWriter : Int → Int → lzwWriter.State
  lzwReader : ReaderApi
  lzwNewReader : Bytes → Int → Int → lzwReader.State
  flateWriter : WriterApi
  flateNewWriter : Int → Except LibError flateWriter.State
  flateReader : ReaderApi
  flateNewReader : Bytes → flateReader.State
  lz4Writer : WriterApi
  lz4NewWriter : lz4Writer.State
  lz4Apply : lz4Writer.State → Int → Int → lz4Writer.State × Option LibError
  lz4Reader : ReaderApi
  lz4NewReader : Bytes → lz4Reader.State
  lzmaWriter : WriterApi
  lzmaNewWriter : Except LibError lzmaWriter.State
  lzmaReader : ReaderApi
  lzmaNewReader : Bytes → Except LibError lzmaReader.State
  lzma2Writer : WriterApi
  lzmaNewWriter2 : Except LibError lzma2Writer.State
  lzma2Reader : ReaderApi
  lzmaNewReader2 : Bytes → Except LibError lzma2Reader.State
  snappyWriter : WriterApi
  snappyNewBufferedWriter : snappyWriter.State
  snappyReader : ReaderApi
  snappyNewReader : Bytes → snappyReader.State

/-! ## Library constants -/

/-- The constant `flate.HuffmanOnly`; `zlib.HuffmanOnly` and `gzip.HuffmanOnly` are defined
as equal to it. -/
def HuffmanOnly : Int := -2

/-- The constant `lzw.LSB` (`lzw.Order` is an integer type, printed with `%d`). -/
def lzwLSB : Int := 0

/-- The constant `lzw.MSB`. -/
def lzwMSB : Int := 1

/-- The constant `lz4.Fast` (the levels are `Fast = 0` and `LevelN = 1 << (8 + N)`, printed
with `%d` as these numbers). -/
def lz4Fast : Int := 0

/-- The constant `lz4.Level1`. -/
def lz4Level1 : Int := 512

/-- The constant `lz4.Level3`. -/
def lz4Level3 : Int := 2048

/-- The constant `lz4.Level5`. -/
def lz4Level5 : Int := 8192

/-- The constant `lz4.Level7`. -/
def lz4Level7 : Int := 32768

/-- The constant `lz4.Level9`. -/
def lz4Level9 : Int := 131072

/-- The constant `lz4.Block64Kb` (the block sizes are their byte counts). -/
def lz4Block64Kb : Int := 65536

/-- The constant `lz4.Block256Kb`. -/
def lz4Block256Kb : Int := 262144

/-- The constant `lz4.Block1Mb`. -/
def lz4Block1Mb : Int := 1048576

/-- The constant `lz4.Block4Mb`. -/
def lz4Block4Mb : Int := 4194304

/-! ## The codec adapters -/

/-- The steps `w.Write(data); w.Close(); b.Bytes()` shared by the compress adapters: both
returned errors are dropped. -/
def WriterApi.writeAll (api : WriterApi) (w : api.State) (data : Bytes) : Bytes :=
  let w1 := (api.write w data).1
  let w2 := (api.close w1).1
  api.bytes w2

/-- The steps `b.ReadFrom(r); r.Close(); b.Bytes()` shared by the decompress adapters: both
returned errors are dropped. -/
def ReaderApi.readAll (api : ReaderApi) (r : api.State) : Bytes :=
  let res := api.readFrom r
  let _closed := api.close res.1
  res.2.1

/-- The adapter `compressZlib`. -/
def compressZlib (L : Lib) (data : Bytes) (level : Int) : Except Panic Bytes :=
  match L.zlibNewWriterLevel level with
  | .error e => .error (.err e)
  | .ok w => .ok (L.zlibWriter.writeAll w data)

/-- The adapter `decompressZlib`. -/
def decompressZlib (L : Lib) (compressed : Bytes) : Except Panic Bytes :=
  match L.zlibNewReader compressed with
  | .error e => .error (.err e)
  | .ok r => .ok (L.zlibReader.readAll r)

/-- The adapter `compressGzip`. -/
def compressGzip (L : Lib) (data : Bytes) (level : Int) : Except Panic Bytes :=
  match L.gzipNewWriterLevel level with
  | .error e => .error (.err e)
  | .ok w => .ok (L.gzipWriter.writeAll w data)

/-- The adapter `decompressGzip`. -/
def decompressGzip (L : Lib) (compressed : Bytes) : Except Panic Bytes :=
  match L.gzipNewReader compressed with
  | .error e => .error (.err e)
  | .ok r => .ok (L.gzipReader.readAll r)

/-- The adapter `compressLzw`. -/
def compressLzw (L : Lib) (data : Bytes) (order litWidth : Int) : Except Panic Bytes :=
  .ok (L.lzwWriter.writeAll (L.lzwNewWriter order litWidth) data)

/-- The adapter `decompressLzw`. -/
def decompressLzw (L : Lib) (compressed : Bytes) (order litWidth : Int) : Except Panic Bytes :=
  .ok (L.lzwReader.readAll (L.lzwNewReader compressed order litWidth))

/-- The adapter `compressFlate`. -/
def compressFlate (L : Lib) (data : Bytes) (level : Int) : Except Panic Bytes :=
  match L.flateNewWriter level with
  | .error e => .error (.err e)
  | .ok w => .ok (L.flateWriter.writeAll w data)

/-- The adapter `decompressFlate`. -/
def decompressFlate (L : Lib) (compressed : Bytes) : Except Panic Bytes :=
  .ok (L.flateReader.readAll (L.flateNewReader compressed))

/-- The adapter `compressLz4`. -/
def compressLz4 (L : Lib) (data : Bytes) (level block : Int) : Except Panic Bytes :=
  match L.lz4Apply L.lz4NewWriter level block with
  | (_, some e) => .error (.err e)
  | (w, none) => .ok (L.lz4Writer.writeAll w data)

/-- The adapter `decompressLz4`; the reader is not closed. -/
def decompressLz4 (L : Lib) (compressed : Bytes) : Except Panic Bytes :=
  .ok (L.lz4Reader.readFrom (L.lz4NewReader compressed)).2.1

/-- The adapter `compressLzma`. -/
def compressLzma (L : Lib) (data : Bytes) : Except Panic Bytes :=
  match L.lzmaNewWriter with
  | .error e => .error (.err e)
  | .ok w => .ok (L.lzmaWriter.writeAll w data)

/-- The adapter `decompressLzma`; the reader is not closed. -/
def decompressLzma (L : Lib) (compressed : Bytes) : Except Panic Bytes :=
  match L.lzmaNewReader compressed with
  | .error e => .error (.err e)
  | .ok r => .ok (L.lzmaReader.readFrom r).2.1

/-- The adapter `compressLzma2`. -/
def compressLzma2 (L : Lib) (data : Bytes) : Except Panic Bytes :=
  match L.lzmaNewWriter2 with
  | .error e => .error (.err e)
  | .ok w => .ok (L.lzma2Writer.writeAll w data)

/-- The adapter `decompressLzma2`; the reader is not closed. -/
def decompressLzma2 (L : Lib) (compressed : Bytes) : Except Panic Bytes :=
  match L.lzmaNewReader2 compressed with
  | .error e => .error (.err e)
  | .ok r => .ok (L.lzma2Reader.readFrom r).2.1

/-- The adapter `compressSnappy`. -/
def compressSnappy (L : Lib) (data : Bytes) : Except Panic Bytes :=
  .ok (L.snappyWriter.writeAll L.snappyNewBufferedWriter data)

/-- The adapter `decompressSnappy`; the reader is not closed. -/
def decompressSnappy (L : Lib) (compressed : Bytes) : Except Panic Bytes :=
  .ok (L.snappyReader.readFrom (L.snappyNewReader compressed)).2.1

/-! ## Runs: events, panics and the clock -/

/-- The eight codecs, used to label the adapter calls of a run. -/
inductive Codec where
  | zlib | gzip | lzw | flate | lz4 | lzma | lzma2 | snappy
  deriving DecidableEq, Repr

/-- A `float64` expression of the harness, kept symbolic: `float64(n)` of an integer,
`d.Seconds()` of a duration of `ns` nanoseconds, and the quotient of two such values. -/
inductive F64 where
  | ofInt (n : Int)
  | seconds (ns : Int)
  | div (a b : F64)
  deriving DecidableEq, Repr

/-- An argument of `fmt.Printf`: an integer (verb `%d`) or a `float64` (verb `%.2f`). -/
inductive Arg where
  | int (n : Int)
  | float (x : F64)
  deriving DecidableEq, Repr

/-- What a run does that can be observed: a call of a compress adapter or of a decompress
adapter (with the codec, the parameters passed and the buffer passed), a reading of
`time.Now()` (with the instant read, in nanoseconds) and a call of `fmt.Printf`. -/
inductive Event where
  | compress (c : Codec) (params : List Int) (data : Bytes)
  | decompress (c : Codec) (params : List Int) (compressed : Bytes)
  | now (t : Int)
  | printf (format : String) (args : List Arg)
  deriving DecidableEq, Repr

/-- The outcome of a run: its events in order, the number of clock readings made so far, and
the value returned or the panic that terminated the process. -/
structure Res (α : Type) where
  trace : List Event
  ticks : Nat
  result : Except Panic α

/-- A run, started after `k` clock readings. -/
def Run (α : Type) : Type := Nat → Res α

/-- Sequencing of statements: a panic in the first ends the run. -/
def Run.bind {α β : Type} (x : Run α) (f : α → Run β) : Run β := fun k =>
  match (x k).result with
  | .ok a => ⟨(x k).trace ++ (f a (x k).ticks).trace, (f a (x k).ticks).ticks,
      (f a (x k).ticks).result⟩
  | .error p => ⟨(x k).trace, (x k).ticks, .error p⟩

/-- A statement without effect. -/
def Run.pure {α : Type} (a : α) : Run α := fun k => ⟨[], k, .ok a⟩

instance : Monad Run where
  pure := Run.pure
  bind := Run.bind

/-- The statement `panic(p)`. -/
def panic {α : Type} (p : Panic) : Run α := fun k => ⟨[], k, .error p⟩

/-- A call of an adapter: the call is recorded, and the adapter's panic, if any, ends the
run. -/
def call (ev : Event) (r : Except Panic Bytes) : Run Bytes := fun k => ⟨[ev], k, r⟩

/-- The statement `fmt.Printf(format, args...)`. -/
def printf (format : String) (args : List Arg) : Run Unit := fun k =>
  ⟨[.printf format args], k, .ok ()⟩

/-- A Go `for _, x := range xs { body }`. -/
def forEach {α : Type} : List α → (α → Run Unit) → Run Unit
  | [], _ => Run.pure ()
  | x :: xs, body => Run.bind (body x) (fun _ => forEach xs body)

/-- The world outside the program: the codec libraries, `os.ReadFile`, and the instant
returned by the `k`-th call of `time.Now()`, in nanoseconds. -/
structure Env where
  lib : Lib
  readFile : String → Except LibError Bytes
  now : Nat → Int

/-- The expression `time.Now()`. -/
def timeNow (E : Env) : Run Int := fun k => ⟨[.now (E.now k)], k + 1, .ok (E.now k)⟩

/-! ## The ratio pass -/

/-- The function `compareCompressionCoefficients`. -/
def compareCompressionCoefficients (L : Lib) (data : Bytes) : Run Unit := do
  printf "Original size: %dkb\n" [.int (data.length / 1024 : Nat)]

  forEach [HuffmanOnly, 1, 3, 5, 7, 9] fun l => do
    let zlibData ← call (.compress .zlib [l] data) (compressZlib L data l)
    printf "zlib(%d) compressed size: %dkb; compression coefficient: %.2f\n"
      [.int l, .int (zlibData.length / 1024 : Nat),
        .float (.div (.ofInt data.length) (.ofInt zlibData.length))]
    if data ≠ (← call (.decompress .zlib [] zlibData) (decompressZlib L zlibData)) then
      panic (.msg "zlib decompression wrong")

  forEach [HuffmanOnly, 1, 3, 5, 7, 9] fun l => do
    let gzipData ← call (.compress .gzip [l] data) (compressGzip L data l)
    printf "gzip(%d) compressed size: %dkb; compression coefficient: %.2f\n"
      [.int l, .int (gzipData.length / 1024 : Nat),
        .float (.div (.ofInt data.length) (.ofInt gzipData.length))]
    if data ≠ (← call (.decompress .gzip [] gzipData) (decompressGzip L gzipData)) then
      panic (.msg "gzip decompression wrong")

  forEach [lzwMSB, lzwLSB] fun o => do
    forEach [8] fun lw => do
      let lzwData ← call (.compress .lzw [o, lw] data) (compressLzw L data o lw)
      printf "lzw(%d, %d) compressed size: %dkb; compression coefficient: %.2f\n"
        [.int o, .int lw, .int (lzwData.length / 1024 : Nat),
          .float (.div (.ofInt data.length) (.ofInt lzwData.length))]
      if data ≠ (← call (.decompress .lzw [o, lw] lzwData) (decompressLzw L lzwData o lw)) then
        panic (.msg "lzw decompression wrong")

  forEach [HuffmanOnly, 1, 3, 5, 7, 9] fun l => do
    let flateData ← call (.compress .flate [l] data) (compressFlate L data l)
    printf "flate(%d) compressed size: %dkb; compression coefficient: %.2f\n"
      [.int l, .int (flateData.length / 1024 : Nat),
        .float (.div (.ofInt data.length) (.ofInt flateData.length))]
    if data ≠ (← call (.decompress .flate [] flateData) (decompressFlate L flateData)) then
      panic (.msg "flate decompression wrong")

  forEach [lz4Fast, lz4Level1, lz4Level3, lz4Level5, lz4Level7, lz4Level9] fun l => do
    forEach [lz4Block64Kb, lz4Block256Kb, lz4Block1Mb, lz4Block4Mb] fun b => do
      let lz4Data ← call (.compress .lz4 [l, b] data) (compressLz4 L data l b)
      printf "lz4(%d, %d) compressed size: %dkb; compression coefficient: %.2f\n"
        [.int l, .int b, .int (lz4Data.length / 1024 : Nat),
          .float (.div (.ofInt data.length) (.ofInt lz4Data.length))]
      if data ≠ (← call (.decompress .lz4 [] lz4Data) (decompressLz4 L lz4Data)) then
        panic (.msg "lz4 decompression wrong")

  do
    let lzmaData ← call (.compress .lzma [] data) (compressLzma L data)
    printf "lzma compressed size: %dkb; compression coefficient: %.2f\n"
      [.int (lzmaData.length / 1024 : Nat),
        .float (.div (.ofInt data.length) (.ofInt lzmaData.length))]
    if data ≠ (← call (.decompress .lzma [] lzmaData) (decompressLzma L lzmaData)) then
      panic (.msg "lzma decompression wrong")
  do
    let lzma2Data ← call (.compress .lzma2 [] data) (compressLzma2 L data)
    printf "lzma2 compressed size: %dkb; compression coefficient: %.2f\n"
      [.int (lzma2Data.length / 1024 : Nat),
        .float (.div (.ofInt data.length) (.ofInt lzma2Data.length))]
    if data ≠ (← call (.decompress .lzma2 [] lzma2Data) (decompressLzma2 L lzma2Data)) then
      panic (.msg "lzma2 decompression wrong")
  do
    let snappyData ← call (.compress .snappy [] data) (compressSnappy L data)
    printf "snappy compressed size: %dkb; compression coefficient: %.2f\n"
      [.int (snappyData.length / 1024 : Nat),
        .float (.div (.ofInt data.length) (.ofInt snappyData.length))]
    if data ≠ (← call (.decompress .snappy [] snappyData) (decompressSnappy L snappyData)) then
      panic (.msg "snappy decompression wrong")

/-! ## The speed pass -/

/-- The local constant `countMeasures` of `compareCompressionSpeeds`. -/
def countMeasures : Nat := 10

/-- The function `compareCompressionSpeeds`. -/
def compareCompressionSpeeds (E : Env) (data : Bytes) : Run Unit := do
  forEach [HuffmanOnly, 1, 3, 5, 7, 9] fun l => do
    let begin ← timeNow E
    forEach (List.range countMeasures) fun _ => do
      let _ ← call (.compress .zlib [l] data) (compressZlib E.lib data l)
    let endT ← timeNow E
    printf "zlib(%d) average compression time: %.2fs\n"
      [.int l, .float (.div (.seconds (endT - begin)) (.ofInt countMeasures))]

    let zlibData ← call (.compress .zlib [l] data) (compressZlib E.lib data l)
    let begin ← timeNow E
    forEach (List.range countMeasures) fun _ => do
      let _ ← call (.decompress .zlib [] zlibData) (decompressZlib E.lib zlibData)
    let endT ← timeNow E
    printf "zlib(%d) average decompression time: %.2fs\n"
      [.int l, .float (.div (.seconds (endT - begin)) (.ofInt countMeasures))]

  forEach [HuffmanOnly, 1, 3, 5, 7, 9] fun l => do
    let begin ← timeNow E
    forEach (List.range countMeasures) fun _ => do
      let _ ← call (.compress .gzip [l] data) (compressGzip E.lib data l)
    let endT ← timeNow E
    printf "gzip(%d) average compression time: %.2fs\n"
      [.int l, .float (.div (.seconds (endT - begin)) (.ofInt countMeasures))]

    let gzipData ← call (.compress .gzip [l] data) (compressGzip E.lib data l)
    let begin ← timeNow E
    forEach (List.range countMeasures) fun _ => do
      let _ ← call (.decompress .gzip [] gzipData) (decompressGzip E.lib gzipData)
    let endT ← timeNow E
    printf "gzip(%d) average decompression time: %.2fs\n"
      [.int l, .float (.div (.seconds (endT - begin)) (.ofInt countMeasures))]

  forEach [lzwMSB, lzwLSB] fun o => do
    forEach [8] fun lw => do
      let begin ← timeNow E
      forEach (List.range countMeasures) fun _ => do
        let _ ← call (.compress .lzw [o, lw] data) (compressLzw E.lib data o lw)
      let endT ← timeNow E
      printf "lzw(%d, %d) average compression time: %.2fs\n"
        [.int o, .int lw, .float (.div (.seconds (endT - begin)) (.ofInt countMeasures))]

      let lzwData ← call (.compress .lzw [o, lw] data) (compressLzw E.lib data o lw)
      let begin ← timeNow E
      forEach (List.range countMeasures) fun _ => do
        let _ ← call (.decompress .lzw [o, lw] lzwData) (decompressLzw E.lib lzwData o lw)
      let endT ← timeNow E
      printf "lzw(%d, %d) average decompression time: %.2fs\n"
        [.int o, .int lw, .float (.div (.seconds (endT - begin)) (.ofInt countMeasures))]

  forEach [HuffmanOnly, 1, 3, 5, 7, 9] fun l => do
    let begin ← timeNow E
    forEach (List.range countMeasures) fun _ => do
      let _ ← call (.compress .flate [l] data) (compressFlate E.lib data l)
    let endT ← timeNow E
    printf "flate(%d) average compression time: %.2fs\n"
      [.int l, .float (.div (.seconds (endT - begin)) (.ofInt countMeasures))]

    let flateData ← call (.compress .flate [l] data) (compressFlate E.lib data l)
    let begin ← timeNow E
    forEach (List.range countMeasures) fun _ => do
      let _ ← call (.decompress .flate [] flateData) (decompressFlate E.lib flateData)
    let endT ← timeNow E
    printf "flate(%d) average decompression time: %.2fs\n"
      [.int l, .float (.div (.seconds (endT - begin)) (.ofInt countMeasures))]

  forEach [lz4Fast, lz4Level1, lz4Level3, lz4Level5, lz4Level7, lz4Level9] fun l => do
    forEach [lz4Block64Kb, lz4Block256Kb, lz4Block1Mb, lz4Block4Mb] fun b => do
      let begin ← timeNow E
      forEach (List.range countMeasures) fun _ => do
        let _ ← call (.compress .lz4 [l, b] data) (compressLz4 E.lib data l b)
      let endT ← timeNow E
      printf "lz4(%d, %d) average compression time: %.2fs\n"
        [.int l, .int b, .float (.div (.seconds (endT - begin)) (.ofInt countMeasures))]

      let lz4Data ← call (.compress .lz4 [l, b] data) (compressLz4 E.lib data l b)
      let begin ← timeNow E
      forEach (List.range countMeasures) fun _ => do
        let _ ← call (.decompress .lz4 [] lz4Data) (decompressLz4 E.lib lz4Data)
      let endT ← timeNow E
      printf "lz4(%d, %d) average decompression time: %.2fs\n"
        [.int l, .int b, .float (.div (.seconds (endT - begin)) (.ofInt countMeasures))]

  do
    let begin ← timeNow E
    forEach (List.range countMeasures) fun _ => do
      let _ ← call (.compress .lzma [] data) (compressLzma E.lib data)
    let endT ← timeNow E
    printf "lzma average compression time: %.2fs\n"
      [.float (.div (.seconds (endT - begin)) (.ofInt countMeasures))]
    let lzmaData ← call (.compress .lzma [] data) (compressLzma E.lib data)
    let begin ← timeNow E
    forEach (List.range countMeasures) fun _ => do
      let _ ← call (.decompress .lzma [] lzmaData) (decompressLzma E.lib lzmaData)
    let endT ← timeNow E
    printf "lzma average decompression time: %.2fs\n"
      [.float (.div (.seconds (endT - begin)) (.ofInt countMeasures))]

  do
    let begin ← timeNow E
    forEach (List.range countMeasures) fun _ => do
      let _ ← call (.compress .lzma2 [] data) (compressLzma2 E.lib data)
    let endT ← timeNow E
    printf "lzma2 average compression time: %.2fs\n"
      [.float (.div (.seconds (endT - begin)) (.ofInt countMeasures))]
    let lzma2Data ← call (.compress .lzma2 [] data) (compressLzma2 E.lib data)
    let begin ← timeNow E
    forEach (List.range countMeasures) fun _ => do
      let _ ← call (.decompress .lzma2 [] lzma2Data) (decompressLzma2 E.lib lzma2Data)
    let endT ← timeNow E
    printf "lzma2 average decompression time: %.2fs\n"
      [.float (.div (.seconds (endT - begin)) (.ofInt countMeasures))]

  do
    let begin ← timeNow E
    forEach (List.range countMeasures) fun _ => do
      let _ ← call (.compress .snappy [] data) (compressSnappy E.lib data)
    let endT ← timeNow E
    printf "snappy average compression time: %.2fs\n"
      [.float (.div (.seconds (endT - begin)) (.ofInt countMeasures))]
    let snappyData ← call (.compress .snappy [] data) (compressSnappy E.lib data)
    let begin ← timeNow E
    forEach (List.range countMeasures) fun _ => do
      let _ ← call (.decompress .snappy [] snappyData) (decompressSnappy E.lib snappyData)
    let endT ← timeNow E
    printf "snappy average decompression time: %.2fs\n"
      [.float (.div (.seconds (endT - begin)) (.ofInt countMeasures))]

/-! ## The driver -/

/-- The function `main`. -/
def main (E : Env) : Run Unit :=
  let path := "./test.wasm"
  match E.readFile path with
  | .error err => panic (.err err)
  | .ok data => do
    compareCompressionCoefficients E.lib data
    compareCompressionSpeeds E data

/-! ## Printing -/

/-- The characters `fmt.Printf` writes for a format that uses the verbs `%d` (with an integer
argument) and `%.2f` (with a `float64` argument, formatted by `ff`); other characters are
copied. -/
def sprintf (ff : F64 → String) : List Char → List Arg → List Char
  | [], _ => []
  | '%' :: 'd' :: rest, .int n :: args => (toString n).toList ++ sprintf ff rest args
  | '%' :: '.' :: '2' :: 'f' :: rest, .float x :: args => (ff x).toList ++ sprintf ff rest args
  | c :: rest, args => c :: sprintf ff rest args

/-- The text written by `fmt.Printf(format, args...)`. -/
def render (ff : F64 → String) (format : String) (args : List Arg) : String :=
  String.mk (sprintf ff format.toList args)

/-- The lines a run writes to standard output, in order. -/
def output (ff : F64 → String) : List Event → List String
  | [] => []
  | .printf format args :: evs => render ff format args :: output ff evs
  | _ :: evs => output ff evs

/-- The exact value of a `float64` expression when it is a number, before any rounding: an
integer, a duration in seconds, a quotient; `none` for a division by zero (`Inf` or `NaN` in
Go). -/
def F64.value : F64 → Option ℚ
  | .ofInt n => some n
  | .seconds ns => some (ns / 1000000000)
  | .div a b =>
    match a.value, b.value with
    | some x, some y => if y = 0 then none else some (x / y)
    | _, _ => none

/-! ## The assumption on the libraries -/

/-- Successive calls of `Write` on a library writer, one for each chunk, from the state `w`. -/
def WriterApi.writeChunks (api : WriterApi) : api.State → List Bytes → api.State
  | w, [] => w
  | w, chunk :: chunks => api.writeChunks (api.write w chunk).1 chunks

/-- The contents of the buffer under a library writer after the chunks were written in turn
and the writer was closed. -/
def WriterApi.stream (api : WriterApi) (w : api.State) (chunks : List Bytes) : Bytes :=
  api.bytes (api.close (api.writeChunks w chunks)).1

/-- Modelled from the spec: the external codec libraries (zlib, gzip, lzw, flate, lz4, lzma,
lzma2, snappy), whose code is not in the repository and which the spec assumes correct. The
assumption is the streaming contract of each library, stated on the library's own operations:
for every declared parameter value the constructors report no error, and when any sequence of
chunks has been written to a writer and the writer has been closed, a reader constructed (with
the same parameters) over the contents of the buffer delivers the chunks, one after the
other. Nothing is assumed about a writer that was not closed, or about bytes no writer
produced. -/
def Lib.Lossless (L : Lib) : Prop :=
  (∀ l ∈ [HuffmanOnly, 1, 3, 5, 7, 9], ∀ chunks, ∃ w r, L.zlibNewWriterLevel l = .ok w
      ∧ L.zlibNewReader (L.zlibWriter.stream w chunks) = .ok r
      ∧ (L.zlibReader.readFrom r).2.1 = chunks.flatten)
    ∧ (∀ l ∈ [HuffmanOnly, 1, 3, 5, 7, 9], ∀ chunks, ∃ w r, L.gzipNewWriterLevel l = .ok w
      ∧ L.gzipNewReader (L.gzipWriter.stream w chunks) = .ok r
      ∧ (L.gzipReader.readFrom r).2.1 = chunks.flatten)
    ∧ (∀ o ∈ [lzwMSB, lzwLSB], ∀ lw ∈ [(8 : Int)], ∀ chunks,
      (L.lzwReader.readFrom
        (L.lzwNewReader (L.lzwWriter.stream (L.lzwNewWriter o lw) chunks) o lw)).2.1
        = chunks.flatten)
    ∧ (∀ l ∈ [HuffmanOnly, 1, 3, 5, 7, 9], ∀ chunks, ∃ w, L.flateNewWriter l = .ok w
      ∧ (L.flateReader.readFrom (L.flateNewReader (L.flateWriter.stream w chunks))).2.1
        = chunks.flatten)
    ∧ (∀ l ∈ [lz4Fast, lz4Level1, lz4Level3, lz4Level5, lz4Level7, lz4Level9],
      ∀ b ∈ [lz4Block64Kb, lz4Block256Kb, lz4Block1Mb, lz4Block4Mb], ∀ chunks,
      ∃ w, L.lz4Apply L.lz4NewWriter l b = (w, none)
        ∧ (L.lz4Reader.readFrom (L.lz4NewReader (L.lz4Writer.stream w chunks))).2.1
          = chunks.flatten)
    ∧ (∀ chunks, ∃ w r, L.lzmaNewWriter = .ok w
      ∧ L.lzmaNewReader (L.lzmaWriter.stream w chunks) = .ok r
      ∧ (L.lzmaReader.readFrom r).2.1 = chunks.flatten)
    ∧ (∀ chunks, ∃ w r, L.lzmaNewWriter2 = .ok w
      ∧ L.lzmaNewReader2 (L.lzma2Writer.stream w chunks) = .ok r
      ∧ (L.lzma2Reader.readFrom r).2.1 = chunks.flatten)
    ∧ (∀ chunks, (L.snappyReader.readFrom
        (L.snappyNewReader (L.snappyWriter.stream L.snappyNewBufferedWriter chunks))).2.1
        = chunks.flatten)

/-! ## Concrete libraries -/

/-- A writer that stores what it is given. -/
def storeWriter : WriterApi where
  State := Bytes
  write := fun w data => (w ++ data, none)
  close := fun w => (w, none)
  bytes := fun w => w

/-- A reader that delivers the bytes it was constructed over. -/
def storeReader : ReaderApi where
  State := Bytes
  readFrom := fun r => ([], r, none)
  close := fun _ => none

/-- A reader that fails with an error before the last byte: it delivers all bytes but the
last. -/
def truncReader : ReaderApi where
  State := Bytes
  readFrom := fun r => ([], r.dropLast, some "unexpected EOF")
  close := fun _ => none

/-- A writer constructor that accepts the levels -2 to 9. -/
def storeNewWriterLevel (level : Int) : Except LibError Bytes :=
  if -2 ≤ level ∧ level ≤ 9 then .ok [] else .error "invalid compression level"

/-- A library whose eight codecs all store the data unchanged. -/
def storeLib : Lib where
  zlibWriter := storeWriter
  zlibNewWriterLevel := storeNewWriterLevel
  zlibReader := storeReader
  zlibNewReader := fun compressed => .ok compressed
  gzipWriter := storeWriter
  gzipNewWriterLevel := storeNewWriterLevel
  gzipReader := storeReader
  gzipNewReader := fun compressed => .ok compressed
  lzwWriter := storeWriter
  lzwNewWriter := fun _ _ => []
  lzwReader := storeReader
  lzwNewReader := fun compressed _ _ => compressed
  flateWriter := storeWriter
  flateNewWriter := storeNewWriterLevel
  flateReader := storeReader
  flateNewReader := fun compressed => compressed
  lz4Writer := storeWriter
  lz4NewWriter := []
  lz4Apply := fun w _ _ => (w, none)
  lz4Reader := storeReader
  lz4NewReader := fun compressed => compressed
  lzmaWriter := storeWriter
  lzmaNewWriter := .ok []
  lzmaReader := storeReader
  lzmaNewReader := fun compressed => .ok compressed
  lzma2Writer := storeWriter
  lzmaNewWriter2 := .ok []
  lzma2Reader := storeReader
  lzmaNewReader2 := fun compressed => .ok compressed
  snappyWriter := storeWriter
  snappyNewBufferedWriter := []
  snappyReader := storeReader
  snappyNewReader := fun compressed => compressed

/-- The library `storeLib` with a zlib reader that loses the last byte. -/
def truncLib : Lib :=
  { storeLib with
    zlibReader := truncReader
    zlibNewReader := fun compressed => .ok compressed }

/-- A writer that keeps what it is given and emits it on `Close` only, as one frame: the
byte 90 followed by the data. The state is the data kept and the buffer. -/
def frameWriter : WriterApi where
  State := Bytes × Bytes
  write := fun w data => ((w.1 ++ data, w.2), none)
  close := fun w => (([], w.2 ++ 90 :: w.1), none)
  bytes := fun w => w.2

/-- The data of a frame, or an error for bytes that do not start with the byte 90. -/
def unframe : Bytes → Except LibError Bytes
  | [] => .error "unexpected EOF"
  | b :: rest => if b = 90 then .ok rest else .error "invalid header"

/-- A reader over the data of a frame that its constructor has opened. -/
def frameReader : ReaderApi where
  State := Bytes
  readFrom := fun r => ([], r, none)
  close := fun _ => none

/-- A reader, for the constructors without an `error` result, that opens the frame when it is
read: bytes that are not a frame give no data and an error. -/
def lazyFrameReader : ReaderApi where
  State := Bytes
  readFrom := fun r =>
    match unframe r with
    | .ok data => ([], data, none)
    | .error e => ([], [], some e)
  close := fun _ => none

/-- A writer constructor that accepts the levels -2 to 9. -/
def frameNewWriterLevel (level : Int) : Except LibError (Bytes × Bytes) :=
  if -2 ≤ level ∧ level ≤ 9 then .ok ([], []) else .error "invalid compression level"

/-- A library whose eight codecs all write one frame on `Close` and read frames only. -/
def frameLib : Lib where
  zlibWriter := frameWriter
  zlibNewWriterLevel := frameNewWriterLevel
  zlibReader := frameReader
  zlibNewReader := unframe
  gzipWriter := frameWriter
  gzipNewWriterLevel := frameNewWriterLevel
  gzipReader := frameReader
  gzipNewReader := unframe
  lzwWriter := frameWriter
  lzwNewWriter := fun _ _ => ([], [])
  lzwReader := lazyFrameReader
  lzwNewReader := fun compressed _ _ => compressed
  flateWriter := frameWriter
  flateNewWriter := frameNewWriterLevel
  flateReader := lazyFrameReader
  flateNewReader := fun compressed => compressed
  lz4Writer := frameWriter
  lz4NewWriter := ([], [])
  lz4Apply := fun w _ _ => (w, none)
  lz4Reader := lazyFrameReader
  lz4NewReader := fun compressed => compressed
  lzmaWriter := frameWriter
  lzmaNewWriter := .ok ([], [])
  lzmaReader := frameReader
  lzmaNewReader := unframe
  lzma2Writer := frameWriter
  lzmaNewWriter2 := .ok ([], [])
  lzma2Reader := frameReader
  lzmaNewReader2 := unframe
  snappyWriter := frameWriter
  snappyNewBufferedWriter := ([], [])
  snappyReader := lazyFrameReader
  snappyNewReader := fun compressed => compressed

/-- An environment over `storeLib`: the file `./test.wasm` holds the two bytes 7, 9, and the
`k`-th clock reading is `1000 * k` nanoseconds. -/
def storeEnv : Env where
  lib := storeLib
  readFile := fun path => if path = "./test.wasm" then .ok [7, 9] else .error "no such file"
  now := fun k => 1000 * k

/-- A formatter for concrete runs: every value is shown as `1.00`. -/
def oneFormat : F64 → String := fun _ => "1.00"

/-! ## Trials: the codec and parameter combinations -/

/-- A trial: a codec with one combination of its parameters. -/
inductive Trial where
  | zlib (l : Int)
  | gzip (l : Int)
  | lzw (o lw : Int)
  | flate (l : Int)
  | lz4 (l b : Int)
  | lzma
  | lzma2
  | snappy
  deriving DecidableEq, Repr

/-- The codec of a trial. -/
def Trial.codec : Trial → Codec
  | .zlib _ => .zlib
  | .gzip _ => .gzip
  | .lzw _ _ => .lzw
  | .flate _ => .flate
  | .lz4 _ _ => .lz4
  | .lzma => .lzma
  | .lzma2 => .lzma2
  | .snappy => .snappy

/-- The parameters a trial passes to its compress adapter. -/
def Trial.params : Trial → List Int
  | .zlib l => [l]
  | .gzip l => [l]
  | .lzw o lw => [o, lw]
  | .flate l => [l]
  | .lz4 l b => [l, b]
  | .lzma => []
  | .lzma2 => []
  | .snappy => []

/-- The parameters a trial passes to its decompress adapter: only `decompressLzw` takes
any. -/
def Trial.readParams : Trial → List Int
  | .lzw o lw => [o, lw]
  | _ => []

/-- The compress adapter of a trial, applied with the trial's parameters. -/
def Trial.compress (t : Trial) (L : Lib) (data : Bytes) : Except Panic Bytes :=
  match t with
  | .zlib l => compressZlib L data l
  | .gzip l => compressGzip L data l
  | .lzw o lw => compressLzw L data o lw
  | .flate l => compressFlate L data l
  | .lz4 l b => compressLz4 L data l b
  | .lzma => compressLzma L data
  | .lzma2 => compressLzma2 L data
  | .snappy => compressSnappy L data

/-- The decompress adapter of a trial, applied with the trial's parameters. -/
def Trial.decompress (t : Trial) (L : Lib) (compressed : Bytes) : Except Panic Bytes :=
  match t with
  | .zlib _ => decompressZlib L compressed
  | .gzip _ => decompressGzip L compressed
  | .lzw o lw => decompressLzw L compressed o lw
  | .flate _ => decompressFlate L compressed
  | .lz4 _ _ => decompressLz4 L compressed
  | .lzma => decompressLzma L compressed
  | .lzma2 => decompressLzma2 L compressed
  | .snappy => decompressSnappy L compressed

/-- The name of a codec in the output and in the panic messages. -/
def Codec.name : Codec → String
  | .zlib => "zlib"
  | .gzip => "gzip"
  | .lzw => "lzw"
  | .flate => "flate"
  | .lz4 => "lz4"
  | .lzma => "lzma"
  | .lzma2 => "lzma2"
  | .snappy => "snappy"

/-- The part of a trial's format strings before the first blank. -/
def Trial.labelFormat : Trial → String
  | .zlib _ => "zlib(%d)"
  | .gzip _ => "gzip(%d)"
  | .lzw _ _ => "lzw(%d, %d)"
  | .flate _ => "flate(%d)"
  | .lz4 _ _ => "lz4(%d, %d)"
  | .lzma => "lzma"
  | .lzma2 => "lzma2"
  | .snappy => "snappy"

/-- The levels of the zlib, gzip and flate loops. -/
def levels : List Int := [HuffmanOnly, 1, 3, 5, 7, 9]

/-- The bit orders of the lzw loops. -/
def lzwOrders : List Int := [lzwMSB, lzwLSB]

/-- The literal widths of the lzw loops. -/
def lzwWidths : List Int := [8]

/-- The levels of the lz4 loops. -/
def lz4Levels : List Int := [lz4Fast, lz4Level1, lz4Level3, lz4Level5, lz4Level7, lz4Level9]

/-- The block sizes of the lz4 loops. -/
def lz4Blocks : List Int := [lz4Block64Kb, lz4Block256Kb, lz4Block1Mb, lz4Block4Mb]

/-- The fixed list of trials: zlib levels, gzip levels, lzw (order outer, width inner), flate
levels, lz4 (level outer, block size inner), lzma, lzma2, snappy. -/
def trials : List Trial :=
  levels.map .zlib ++ levels.map .gzip
    ++ lzwOrders.flatMap (fun o => lzwWidths.map fun lw => .lzw o lw)
    ++ levels.map .flate
    ++ lz4Levels.flatMap (fun l => lz4Blocks.map fun b => .lz4 l b)
    ++ [.lzma, .lzma2, .snappy]

/-- The format string of a trial's line in the ratio pass. -/
def ratioFormat (t : Trial) : String :=
  t.labelFormat ++ " compressed size: %dkb; compression coefficient: %.2f\n"

/-- The `Printf` arguments of a trial's line in the ratio pass, for the compressed output
`c`. -/
def ratioArgs (t : Trial) (data c : Bytes) : List Arg :=
  t.params.map .int ++ [.int (c.length / 1024 : Nat),
    .float (.div (.ofInt data.length) (.ofInt c.length))]

/-- The body of the loops of the ratio pass, for any trial. -/
def coefTrial (L : Lib) (data : Bytes) (t : Trial) : Run Unit := do
  let c ← call (.compress t.codec t.params data) (t.compress L data)
  printf (ratioFormat t) (ratioArgs t data c)
  if data ≠ (← call (.decompress t.codec t.readParams c) (t.decompress L c)) then
    panic (.msg (t.codec.name ++ " decompression wrong"))

/-- The format string of a trial's compression-time line in the speed pass. -/
def compressTimeFormat (t : Trial) : String :=
  t.labelFormat ++ " average compression time: %.2fs\n"

/-- The format string of a trial's decompression-time line in the speed pass. -/
def decompressTimeFormat (t : Trial) : String :=
  t.labelFormat ++ " average decompression time: %.2fs\n"

/-- The `Printf` arguments of a trial's time lines, for the clock readings `b` and `e`. -/
def timeArgs (t : Trial) (b e : Int) : List Arg :=
  t.params.map .int ++ [.float (.div (.seconds (e - b)) (.ofInt countMeasures))]

/-- The body of the loops of the speed pass, for any trial. -/
def speedTrial (E : Env) (data : Bytes) (t : Trial) : Run Unit := do
  let begin ← timeNow E
  forEach (List.range countMeasures) fun _ => do
    let _ ← call (.compress t.codec t.params data) (t.compress E.lib data)
  let endT ← timeNow E
  printf (compressTimeFormat t) (timeArgs t begin endT)

  let c ← call (.compress t.codec t.params data) (t.compress E.lib data)
  let begin ← timeNow E
  forEach (List.range countMeasures) fun _ => do
    let _ ← call (.decompress t.codec t.readParams c) (t.decompress E.lib c)
  let endT ← timeNow E
  printf (decompressTimeFormat t) (timeArgs t begin endT)

/-! ## Traces of the passes, for the statements -/

/-- The events of a trial of the ratio pass whose compress adapter returned `c`: the compress
call, the `Printf` call, the decompress call. -/
def coefEvents (t : Trial) (data c : Bytes) : List Event :=
  [.compress t.codec t.params data, .printf (ratioFormat t) (ratioArgs t data c),
    .decompress t.codec t.readParams c]

/-- A trial round-trips: its compress adapter returns, and its decompress adapter returns the
input from the compressed output. -/
def RoundTrips (L : Lib) (data : Bytes) (t : Trial) : Prop :=
  ∃ c, t.compress L data = .ok c ∧ t.decompress L c = .ok data

/-- The compressed output of a trial (empty when the compress adapter panics). -/
def compressedOf (L : Lib) (data : Bytes) (t : Trial) : Bytes :=
  match t.compress L data with
  | .ok c => c
  | .error _ => []

/-- The `Printf` call that starts the ratio pass. -/
def headerLine (data : Bytes) : Event :=
  .printf "Original size: %dkb\n" [.int (data.length / 1024 : Nat)]

/-- The events of the trials `ts` of the ratio pass when each of them round-trips. -/
def coefTrace (L : Lib) (data : Bytes) (ts : List Trial) : List Event :=
  ts.flatMap fun t => coefEvents t data (compressedOf L data t)

/-- The codec and parameters of the compress calls of a trace, in order. -/
def compressCalls : List Event → List (Codec × List Int)
  | [] => []
  | .compress c params _ :: evs => (c, params) :: compressCalls evs
  | _ :: evs => compressCalls evs

/-- The events of the timed compression loop of a trial, started after `k` clock readings:
the reading `begin`, the compress calls, the reading `end`, the `Printf` call. -/
def compressTiming (E : Env) (data : Bytes) (t : Trial) (k : Nat) : List Event :=
  [.now (E.now k)] ++ List.replicate countMeasures (.compress t.codec t.params data)
    ++ [.now (E.now (k + 1)),
      .printf (compressTimeFormat t) (timeArgs t (E.now k) (E.now (k + 1)))]

/-- The events of the timed decompression loop of a trial over the sample `c`, started after
`k` clock readings: the reading `begin`, the decompress calls, the reading `end`, the `Printf`
call. -/
def decompressTiming (E : Env) (t : Trial) (c : Bytes) (k : Nat) : List Event :=
  [.now (E.now k)] ++ List.replicate countMeasures (.decompress t.codec t.readParams c)
    ++ [.now (E.now (k + 1)),
      .printf (decompressTimeFormat t) (timeArgs t (E.now k) (E.now (k + 1)))]

/-- The events of a trial of the speed pass none of whose adapter calls panics: the timed
compression loop, the compress call that produces the sample `c`, the timed decompression
loop. -/
def speedEvents (E : Env) (data : Bytes) (t : Trial) (c : Bytes) (k : Nat) : List Event :=
  compressTiming E data t k ++ [.compress t.codec t.params data]
    ++ decompressTiming E t c (k + 2)

/-- A trial completes in the speed pass: its compress adapter returns, and its decompress
adapter returns on the compressed output. -/
def Completes (L : Lib) (data : Bytes) (t : Trial) : Prop :=
  ∃ c d, t.compress L data = .ok c ∧ t.decompress L c = .ok d

/-- The events of the trials `ts` of the speed pass, started after `k` clock readings, when
each of them completes. -/
def speedTrace (E : Env) (data : Bytes) : List Trial → Nat → List Event
  | [], _ => []
  | t :: ts, k =>
    speedEvents E data t (compressedOf E.lib data t) k ++ speedTrace E data ts (k + 4)

/-- The fixed order of the trials, written out: zlib and gzip at the six levels, lzw at (MSB, 8)
then (LSB, 8), flate at the six levels, lz4 at six levels (outer) times four block sizes
(inner), then lzma, lzma2 and snappy. -/
def fixedOrder : List Trial :=
  [.zlib HuffmanOnly, .zlib 1, .zlib 3, .zlib 5, .zlib 7, .zlib 9, .gzip HuffmanOnly,
    .gzip 1, .gzip 3, .gzip 5, .gzip 7, .gzip 9, .lzw lzwMSB 8, .lzw lzwLSB 8,
    .flate HuffmanOnly, .flate 1, .flate 3, .flate 5, .flate 7, .flate 9,
    .lz4 lz4Fast lz4Block64Kb, .lz4 lz4Fast lz4Block256Kb, .lz4 lz4Fast lz4Block1Mb,
    .lz4 lz4Fast lz4Block4Mb, .lz4 lz4Level1 lz4Block64Kb, .lz4 lz4Level1 lz4Block256Kb,
    .lz4 lz4Level1 lz4Block1Mb, .lz4 lz4Level1 lz4Block4Mb, .lz4 lz4Level3 lz4Block64Kb,
    .lz4 lz4Level3 lz4Block256Kb, .lz4 lz4Level3 lz4Block1Mb, .lz4 lz4Level3 lz4Block4Mb,
    .lz4 lz4Level5 lz4Block64Kb, .lz4 lz4Level5 lz4Block256Kb, .lz4 lz4Level5 lz4Block1Mb,
    .lz4 lz4Level5 lz4Block4Mb, .lz4 lz4Level7 lz4Block64Kb, .lz4 lz4Level7 lz4Block256Kb,
    .lz4 lz4Level7 lz4Block1Mb, .lz4 lz4Level7 lz4Block4Mb, .lz4 lz4Level9 lz4Block64Kb,
    .lz4 lz4Level9 lz4Block256Kb, .lz4 lz4Level9 lz4Block1Mb, .lz4 lz4Level9 lz4Block4Mb,
    .lzma, .lzma2, .snappy]

/-- What a trial's lines start with: the codec name, followed by the parameters in parentheses
for zlib, gzip, lzw, flate and lz4, and by nothing for lzma, lzma2 and snappy. -/
def Trial.label : Trial → String
  | .zlib l => "zlib(" ++ toString l ++ ")"
  | .gzip l => "gzip(" ++ toString l ++ ")"
  | .lzw o lw => "lzw(" ++ toString o ++ ", " ++ toString lw ++ ")"
  | .flate l => "flate(" ++ toString l ++ ")"
  | .lz4 l b => "lz4(" ++ toString l ++ ", " ++ toString b ++ ")"
  | .lzma => "lzma"
  | .lzma2 => "lzma2"
  | .snappy => "snappy"

/-! ## Laws of runs -/

theorem Run.bind_def {α β : Type} (x : Run α) (f : α → Run β) : x >>= f = Run.bind x f := rfl

theorem Run.pure_def {α : Type} (a : α) : (pure a : Run α) = Run.pure a := rfl

theorem Run.bind_assoc {α β γ : Type} (x : Run α) (f : α → Run β) (g : β → Run γ) :
    Run.bind (Run.bind x f) g = Run.bind x (fun a => Run.bind (f a) g) := by
  funext k
  simp only [Run.bind]
  cases h : (x k).result with
  | error p => simp
  | ok a =>
    simp only
    cases h2 : (f a (x k).ticks).result with
    | error p => simp
    | ok b => simp [List.append_assoc]

theorem Run.bind_pure_unit (x : Run Unit) : Run.bind x (fun _ => Run.pure ()) = x := by
  funext k
  simp only [Run.bind, Run.pure]
  generalize x k = r
  rcases r with ⟨tr, tk, _ | _⟩ <;> simp

theorem Run.pure_bind {α β : Type} (a : α) (f : α → Run β) : Run.bind (Run.pure a) f = f a := by
  funext k
  simp [Run.bind, Run.pure]

theorem Run.panic_bind {α β : Type} (p : Panic) (f : α → Run β) :
    Run.bind (panic p) f = panic p := by
  funext k
  simp [Run.bind, panic]

theorem Run.ite_bind {α β : Type} (c : Prop) [Decidable c] (x y : Run α) (f : α → Run β) :
    Run.bind (if c then x else y) f = if c then Run.bind x f else Run.bind y f := by
  split <;> rfl

theorem forEach_append {α : Type} (xs ys : List α) (f : α → Run Unit) :
    forEach (xs ++ ys) f = Run.bind (forEach xs f) (fun _ => forEach ys f) := by
  induction xs with
  | nil => simp [forEach, Run.pure_bind]
  | cons x xs ih => simp [forEach, ih, Run.bind_assoc]

theorem forEach_map {α β : Type} (g : α → β) (xs : List α) (f : β → Run Unit) :
    forEach (xs.map g) f = forEach xs (fun x => f (g x)) := by
  induction xs with
  | nil => simp [forEach]
  | cons x xs ih => simp [forEach, ih]

theorem forEach_flatMap {α β : Type} (g : α → List β) (xs : List α) (f : β → Run Unit) :
    forEach (xs.flatMap g) f = forEach xs (fun x => forEach (g x) f) := by
  induction xs with
  | nil => simp [forEach]
  | cons x xs ih => simp [forEach, forEach_append, ih]

theorem forEach_three {α : Type} (a b c : α) (f : α → Run Unit) :
    forEach [a, b, c] f = Run.bind (f a) (fun _ => Run.bind (f b) (fun _ => f c)) := by
  simp [forEach, Run.bind_pure_unit]

/-- The ratio pass is the header line followed by the loop body `coefTrial` over `trials`. -/
theorem compareCompressionCoefficients_eq (L : Lib) (data : Bytes) :
    compareCompressionCoefficients L data
      = Run.bind (printf "Original size: %dkb\n" [.int (data.length / 1024 : Nat)])
          (fun _ => forEach trials (coefTrial L data)) := by
  unfold compareCompressionCoefficients trials
  simp only [forEach_append, forEach_map, forEach_flatMap, Run.bind_assoc, Run.bind_def,
    Run.pure_def, Run.pure_bind, Run.panic_bind, Run.ite_bind, Run.bind_pure_unit,
    levels, lzwOrders, lzwWidths, lz4Levels, lz4Blocks, forEach_three, coefTrial]
  rfl

/-- The speed pass is the loop body `speedTrial` over `trials`. -/
theorem compareCompressionSpeeds_eq (E : Env) (data : Bytes) :
    compareCompressionSpeeds E data = forEach trials (speedTrial E data) := by
  unfold compareCompressionSpeeds trials
  simp only [forEach_append, forEach_map, forEach_flatMap, Run.bind_assoc, Run.bind_def,
    Run.pure_def, Run.pure_bind, Run.bind_pure_unit,
    levels, lzwOrders, lzwWidths, lz4Levels, lz4Blocks, forEach_three, speedTrial]
  rfl

/-! ## What one trial of the ratio pass does -/

theorem Run.bind_apply_ok {α β : Type} {x : Run α} {f : α → Run β} {k : Nat} {a : α}
    (h : (x k).result = .ok a) :
    Run.bind x f k = ⟨(x k).trace ++ (f a (x k).ticks).trace, (f a (x k).ticks).ticks,
      (f a (x k).ticks).result⟩ := by
  simp [Run.bind, h]

theorem Run.bind_apply_error {α β : Type} {x : Run α} {f : α → Run β} {k : Nat} {p : Panic}
    (h : (x k).result = .error p) :
    Run.bind x f k = ⟨(x k).trace, (x k).ticks, .error p⟩ := by
  simp [Run.bind, h]

theorem coefTrial_apply (L : Lib) (data : Bytes) (t : Trial) (k : Nat) :
    coefTrial L data t k =
      match t.compress L data with
      | .error p => ⟨[.compress t.codec t.params data], k, .error p⟩
      | .ok c =>
        match t.decompress L c with
        | .error p => ⟨coefEvents t data c, k, .error p⟩
        | .ok d => ⟨coefEvents t data c, k,
            if data ≠ d then .error (.msg (t.codec.name ++ " decompression wrong"))
            else .ok ()⟩ := by
  unfold coefTrial
  simp only [Run.bind_def, Run.pure_def, Run.bind, call, printf, panic, Run.pure, coefEvents]
  cases hc : t.compress L data with
  | error p => simp
  | ok c =>
    simp only
    cases hd : t.decompress L c with
    | error p => simp
    | ok d =>
      simp only
      by_cases hne : data = d
      · simp only [hne, ne_eq, not_true_eq_false, if_false]
        rfl
      · simp [hne, panic]

theorem coefTrial_roundTrips {L : Lib} {data : Bytes} {t : Trial} (h : RoundTrips L data t)
    (k : Nat) :
    ∃ c, t.compress L data = .ok c ∧ coefTrial L data t k = ⟨coefEvents t data c, k, .ok ()⟩ := by
  obtain ⟨c, hc, hd⟩ := h
  refine ⟨c, hc, ?_⟩
  rw [coefTrial_apply, hc]
  simp [hd]

theorem coefTrial_ok_iff (L : Lib) (data : Bytes) (t : Trial) (k : Nat) :
    (coefTrial L data t k).result = .ok () ↔ RoundTrips L data t := by
  rw [coefTrial_apply]
  unfold RoundTrips
  cases hc : t.compress L data with
  | error p => simp
  | ok c =>
    cases hd : t.decompress L c with
    | error p => simp [hd]
    | ok d =>
      by_cases hne : data = d
      · subst hne; simp [hd]
      · simp [hne, hd]; exact fun h => hne h.symm

theorem coefTrial_ticks (L : Lib) (data : Bytes) (t : Trial) (k : Nat) :
    (coefTrial L data t k).ticks = k := by
  rw [coefTrial_apply]
  cases hc : t.compress L data with
  | error p => rfl
  | ok c => cases hd : t.decompress L c <;> simp [hd]

/-! ## What the ratio pass does -/

theorem compressedOf_eq {L : Lib} {data : Bytes} {t : Trial} {c : Bytes}
    (h : t.compress L data = .ok c) : compressedOf L data t = c := by
  simp [compressedOf, h]

theorem forEach_coef_prefix (L : Lib) (data : Bytes) (pre rest : List Trial) (k : Nat)
    (h : ∀ s ∈ pre, RoundTrips L data s) :
    forEach (pre ++ rest) (coefTrial L data) k
      = ⟨coefTrace L data pre ++ (forEach rest (coefTrial L data) k).trace,
          (forEach rest (coefTrial L data) k).ticks,
          (forEach rest (coefTrial L data) k).result⟩ := by
  induction pre with
  | nil => simp [coefTrace]
  | cons s pre ih =>
    obtain ⟨c, hc, hs⟩ := coefTrial_roundTrips (h s (List.mem_cons_self s pre)) k
    have hres : (coefTrial L data s k).result = .ok () := by rw [hs]
    rw [List.cons_append, forEach, Run.bind_apply_ok hres]
    rw [hs]
    simp only
    rw [ih (fun u hu => h u (List.mem_cons_of_mem s hu))]
    simp [coefTrace, compressedOf_eq hc]

theorem forEach_coef_ok (L : Lib) (data : Bytes) (ts : List Trial) (k : Nat)
    (h : ∀ s ∈ ts, RoundTrips L data s) :
    forEach ts (coefTrial L data) k = ⟨coefTrace L data ts, k, .ok ()⟩ := by
  have := forEach_coef_prefix L data ts [] k h
  simpa [forEach, Run.pure] using this

theorem forEach_coef_ok_iff (L : Lib) (data : Bytes) (ts : List Trial) (k : Nat) :
    (forEach ts (coefTrial L data) k).result = .ok () ↔ ∀ s ∈ ts, RoundTrips L data s := by
  induction ts with
  | nil => simp [forEach, Run.pure]
  | cons t ts ih =>
    rw [List.forall_mem_cons, ← ih, ← coefTrial_ok_iff L data t k, forEach]
    cases hres : (coefTrial L data t k).result with
    | error p => simp [Run.bind_apply_error hres]
    | ok u =>
      rw [Run.bind_apply_ok hres, coefTrial_ticks]
      simp

theorem compareCompressionCoefficients_apply (L : Lib) (data : Bytes) (k : Nat) :
    compareCompressionCoefficients L data k
      = ⟨headerLine data :: (forEach trials (coefTrial L data) k).trace,
          (forEach trials (coefTrial L data) k).ticks,
          (forEach trials (coefTrial L data) k).result⟩ := by
  rw [compareCompressionCoefficients_eq]
  have hres : (printf "Original size: %dkb\n" [.int (data.length / 1024 : Nat)] k).result
      = .ok () := rfl
  rw [Run.bind_apply_ok hres]
  rfl

theorem compressCalls_append (xs ys : List Event) :
    compressCalls (xs ++ ys) = compressCalls xs ++ compressCalls ys := by
  induction xs with
  | nil => rfl
  | cons x xs ih => cases x <;> simp [compressCalls, ih]

theorem compressCalls_coefTrace (L : Lib) (data : Bytes) (ts : List Trial) :
    compressCalls (coefTrace L data ts) = ts.map fun t => (t.codec, t.params) := by
  induction ts with
  | nil => rfl
  | cons t ts ih =>
    have : coefTrace L data (t :: ts)
        = coefEvents t data (compressedOf L data t) ++ coefTrace L data ts := by
      simp [coefTrace]
    rw [this, compressCalls_append, ih]
    simp [coefEvents, compressCalls, ratioFormat]

/-! ## What one trial of the speed pass does -/

theorem forEach_call {α : Type} (xs : List α) (ev : Event) (r : Except Panic Bytes) (k : Nat) :
    forEach xs (fun _ => Run.bind (call ev r) fun _ => pure PUnit.unit) k =
      match r with
      | .ok _ => ⟨List.replicate xs.length ev, k, .ok ()⟩
      | .error p => if xs.length = 0 then ⟨[], k, .ok ()⟩ else ⟨[ev], k, .error p⟩ := by
  cases r with
  | error p =>
    cases xs with
    | nil => rfl
    | cons x xs => simp [forEach, Run.bind, call]
  | ok c =>
    induction xs with
    | nil => rfl
    | cons x xs ih =>
      have hres : (Run.bind (call ev (.ok c)) (fun _ => (pure PUnit.unit : Run Unit)) k).result
          = .ok () := rfl
      rw [forEach, Run.bind_apply_ok hres]
      have hk : (Run.bind (call ev (.ok c)) (fun _ => (pure PUnit.unit : Run Unit)) k).ticks
          = k := rfl
      have ht : (Run.bind (call ev (.ok c)) (fun _ => (pure PUnit.unit : Run Unit)) k).trace
          = [ev] := rfl
      rw [hk, ht, ih]
      simp [List.replicate_succ]

theorem speedTrial_apply (E : Env) (data : Bytes) (t : Trial) (k : Nat) :
    speedTrial E data t k =
      match t.compress E.lib data with
      | .error p => ⟨[.now (E.now k), .compress t.codec t.params data], k + 1, .error p⟩
      | .ok c =>
        match t.decompress E.lib c with
        | .error p => ⟨compressTiming E data t k
            ++ [.compress t.codec t.params data, .now (E.now (k + 2)),
              .decompress t.codec t.readParams c], k + 3, .error p⟩
        | .ok _ => ⟨speedEvents E data t c k, k + 4, .ok ()⟩ := by
  unfold speedTrial
  simp only [Run.bind_def]
  cases hc : t.compress E.lib data with
  | error p =>
    simp [Run.bind, forEach_call, timeNow, countMeasures]
  | ok c =>
    cases hd : t.decompress E.lib c with
    | error p =>
      simp [Run.bind, forEach_call, timeNow, countMeasures, call, printf, hd, compressTiming]
    | ok d =>
      simp [Run.bind, forEach_call, timeNow, countMeasures, call, printf, hd, compressTiming,
        decompressTiming, speedEvents]

/-! ## What the speed pass does -/

theorem speedTrial_completes {E : Env} {data : Bytes} {t : Trial}
    (h : Completes E.lib data t) (k : Nat) :
    speedTrial E data t k
      = ⟨speedEvents E data t (compressedOf E.lib data t) k, k + 4, .ok ()⟩ := by
  obtain ⟨c, d, hc, hd⟩ := h
  rw [speedTrial_apply, compressedOf_eq hc, hc]
  simp only
  rw [hd]

theorem speedTrial_ok_iff (E : Env) (data : Bytes) (t : Trial) (k : Nat) :
    (speedTrial E data t k).result = .ok () ↔ Completes E.lib data t := by
  rw [speedTrial_apply]
  unfold Completes
  cases hc : t.compress E.lib data with
  | error p => simp
  | ok c =>
    cases hd : t.decompress E.lib c with
    | error p => simp [hd]
    | ok d => simp [hd]

theorem forEach_speed_prefix (E : Env) (data : Bytes) (pre rest : List Trial) (k : Nat)
    (h : ∀ s ∈ pre, Completes E.lib data s) :
    forEach (pre ++ rest) (speedTrial E data) k
      = ⟨speedTrace E data pre k
            ++ (forEach rest (speedTrial E data) (k + 4 * pre.length)).trace,
          (forEach rest (speedTrial E data) (k + 4 * pre.length)).ticks,
          (forEach rest (speedTrial E data) (k + 4 * pre.length)).result⟩ := by
  induction pre generalizing k with
  | nil => simp [speedTrace]
  | cons s pre ih =>
    have hs := speedTrial_completes (h s (List.mem_cons_self s pre)) k
    have hres : (speedTrial E data s k).result = .ok () := by rw [hs]
    rw [List.cons_append, forEach, Run.bind_apply_ok hres]
    rw [hs]
    simp only
    rw [ih (k + 4) (fun u hu => h u (List.mem_cons_of_mem s hu))]
    have hk : k + 4 + 4 * pre.length = k + 4 * (s :: pre).length := by
      simp [List.length_cons]; ring
    simp [speedTrace, hk]

theorem forEach_speed_ok_iff (E : Env) (data : Bytes) (ts : List Trial) (k : Nat) :
    (forEach ts (speedTrial E data) k).result = .ok () ↔ ∀ s ∈ ts, Completes E.lib data s := by
  induction ts generalizing k with
  | nil => simp [forEach, Run.pure]
  | cons t ts ih =>
    rw [List.forall_mem_cons, ← speedTrial_ok_iff E data t k, forEach]
    cases hres : (speedTrial E data t k).result with
    | error p => simp [Run.bind_apply_error hres]
    | ok u =>
      rw [Run.bind_apply_ok hres]
      simp [ih]

theorem forEach_speed_ok (E : Env) (data : Bytes) (ts : List Trial) (k : Nat)
    (h : ∀ s ∈ ts, Completes E.lib data s) :
    forEach ts (speedTrial E data) k
      = ⟨speedTrace E data ts k, k + 4 * ts.length, .ok ()⟩ := by
  have := forEach_speed_prefix E data ts [] k h
  simpa [forEach, Run.pure] using this

theorem compressCalls_replicate_compress (n : Nat) (c : Codec) (ps : List Int) (data : Bytes) :
    compressCalls (List.replicate n (.compress c ps data)) = List.replicate n (c, ps) := by
  induction n with
  | zero => rfl
  | succ n ih => simp [List.replicate_succ, compressCalls, ih]

theorem compressCalls_replicate_decompress (n : Nat) (c : Codec) (ps : List Int)
    (data : Bytes) : compressCalls (List.replicate n (.decompress c ps data)) = [] := by
  induction n with
  | zero => rfl
  | succ n ih => simp [List.replicate_succ, compressCalls, ih]

theorem compressCalls_speedTrace (E : Env) (data : Bytes) (ts : List Trial) (k : Nat) :
    compressCalls (speedTrace E data ts k)
      = ts.flatMap fun t => List.replicate 11 (t.codec, t.params) := by
  induction ts generalizing k with
  | nil => rfl
  | cons t ts ih =>
    rw [speedTrace, compressCalls_append, ih]
    simp [speedEvents, compressTiming, decompressTiming, compressCalls_append,
      compressCalls_replicate_compress, compressCalls_replicate_decompress, compressCalls,
      countMeasures, List.replicate_succ]

/-! ## The concrete libraries at work -/

theorem storeLib_roundTrips (data : Bytes) : ∀ t ∈ trials, RoundTrips storeLib data t := by
  intro t ht
  simp only [trials, levels, lzwOrders, lzwWidths, lz4Levels, lz4Blocks, List.map_cons,
    List.map_nil, List.flatMap_cons, List.flatMap_nil, List.cons_append, List.nil_append,
    List.append_nil, List.mem_cons, List.mem_singleton, List.not_mem_nil, or_false] at ht
  rcases ht with h | h | h | h | h | h | h | h | h | h | h | h | h | h | h | h | h | h | h | h
    | h | h | h | h | h | h | h | h | h | h | h | h | h | h | h | h | h | h | h | h | h | h | h
    | h | h | h | h <;> subst h <;> exact ⟨data, rfl, rfl⟩

theorem storeLib_completes (data : Bytes) : ∀ t ∈ trials, Completes storeLib data t := by
  intro t ht
  obtain ⟨c, hc, hd⟩ := storeLib_roundTrips data t ht
  exact ⟨c, data, hc, hd⟩

/-! ## The ratio pass from a trial on -/

theorem forEach_coef_cons (L : Lib) (data : Bytes) (t : Trial) (post : List Trial) (k : Nat)
    {c : Bytes} (hc : t.compress L data = .ok c) :
    ∃ after, (forEach (t :: post) (coefTrial L data) k).trace = coefEvents t data c ++ after
      ∧ (¬ t.decompress L c = .ok data →
          after = [] ∧ (forEach (t :: post) (coefTrial L data) k).result
            = (coefTrial L data t k).result) := by
  have happ := coefTrial_apply L data t k
  rw [hc] at happ
  simp only at happ
  cases hres : (coefTrial L data t k).result with
  | error p =>
    refine ⟨[], ?_, fun _ => ⟨rfl, ?_⟩⟩
    · rw [forEach, Run.bind_apply_error hres]
      simp only [List.append_nil]
      rw [happ]
      cases hd : t.decompress L c <;> rfl
    · rw [forEach, Run.bind_apply_error hres]
  | ok u =>
    have hrt : RoundTrips L data t := (coefTrial_ok_iff L data t k).mp hres
    obtain ⟨c', hc', hd'⟩ := hrt
    rw [hc] at hc'
    cases hc'
    refine ⟨(forEach post (coefTrial L data) k).trace, ?_, fun hne => absurd hd' hne⟩
    rw [forEach, Run.bind_apply_ok hres, coefTrial_ticks]
    simp only
    rw [happ, hd']

theorem coef_result_mismatch (L : Lib) (data : Bytes) (t : Trial) (k : Nat) {c d : Bytes}
    (hc : t.compress L data = .ok c) (hd : t.decompress L c = .ok d) (hne : d ≠ data) :
    (coefTrial L data t k).result = .error (.msg (t.codec.name ++ " decompression wrong")) := by
  rw [coefTrial_apply, hc]
  simp only
  rw [hd]
  simp only [ne_eq]
  rw [if_pos (fun h => hne h.symm)]

theorem coef_split (L : Lib) (data : Bytes) (k : Nat) (pre : List Trial) (t : Trial)
    (post : List Trial) (hsplit : trials = pre ++ t :: post)
    (hpre : ∀ s ∈ pre, RoundTrips L data s) :
    compareCompressionCoefficients L data k
      = ⟨[headerLine data] ++ coefTrace L data pre
            ++ (forEach (t :: post) (coefTrial L data) k).trace,
          (forEach (t :: post) (coefTrial L data) k).ticks,
          (forEach (t :: post) (coefTrial L data) k).result⟩ := by
  rw [compareCompressionCoefficients_apply, hsplit, forEach_coef_prefix L data pre _ k hpre]
  simp

theorem compressCalls_forEach_coef (L : Lib) (data : Bytes) (ts : List Trial) (k : Nat) :
    compressCalls (forEach ts (coefTrial L data) k).trace
      <+: ts.map fun t => (t.codec, t.params) := by
  induction ts with
  | nil => simp [forEach, Run.pure, compressCalls]
  | cons t ts ih =>
    have happ := coefTrial_apply L data t k
    cases hc : t.compress L data with
    | error p =>
      rw [hc] at happ
      simp only at happ
      have hres : (coefTrial L data t k).result = .error p := by rw [happ]
      rw [forEach, Run.bind_apply_error hres]
      simp only
      rw [happ]
      simp [compressCalls]
    | ok c =>
      obtain ⟨after, htr, -⟩ := forEach_coef_cons L data t ts k hc
      cases hres : (coefTrial L data t k).result with
      | error p =>
        rw [forEach, Run.bind_apply_error hres]
        simp only
        rw [hc] at happ
        simp only at happ
        have : (coefTrial L data t k).trace = coefEvents t data c := by
          rw [happ]; cases hd : t.decompress L c <;> rfl
        rw [this]
        simp [coefEvents, compressCalls]
      | ok u =>
        rw [forEach, Run.bind_apply_ok hres, coefTrial_ticks]
        simp only
        rw [hc] at happ
        simp only at happ
        have : (coefTrial L data t k).trace = coefEvents t data c := by
          rw [happ]; cases hd : t.decompress L c <;> rfl
        rw [this, compressCalls_append]
        simpa [coefEvents, compressCalls] using ih

theorem trials_labels_nodup : (trials.map fun t => (t.codec, t.params)).Nodup := by decide

theorem trials_eq : trials = fixedOrder := by
  simp only [trials, fixedOrder, levels, lzwOrders, lzwWidths, lz4Levels, lz4Blocks,
    List.map_cons, List.map_nil, List.flatMap_cons, List.flatMap_nil, List.cons_append,
    List.nil_append, List.append_nil]

/-! ## The speed pass from a trial on, the framing library, the printed lines -/

theorem speed_split (E : Env) (data : Bytes) (k : Nat) (pre : List Trial) (t : Trial)
    (post : List Trial) (c d : Bytes) (hsplit : trials = pre ++ t :: post)
    (hpre : ∀ s ∈ pre, Completes E.lib data s) (hc : t.compress E.lib data = .ok c)
    (hd : t.decompress E.lib c = .ok d) :
    (compareCompressionSpeeds E data k).trace
      = speedTrace E data pre k ++ speedEvents E data t c (k + 4 * pre.length)
        ++ (forEach post (speedTrial E data) (k + 4 * pre.length + 4)).trace := by
  have hcomp : Completes E.lib data t := ⟨c, d, hc, hd⟩
  have hs := speedTrial_completes hcomp (k + 4 * pre.length)
  have hres : (speedTrial E data t (k + 4 * pre.length)).result = .ok () := by rw [hs]
  rw [compareCompressionSpeeds_eq, hsplit, forEach_speed_prefix E data pre _ k hpre]
  simp only
  rw [forEach, Run.bind_apply_ok hres, hs, compressedOf_eq hc]
  simp

theorem frameWriter_writeChunks (w : Bytes × Bytes) (chunks : List Bytes) :
    frameWriter.writeChunks w chunks = (w.1 ++ chunks.flatten, w.2) := by
  induction chunks generalizing w with
  | nil => simp [WriterApi.writeChunks]
  | cons chunk chunks ih =>
    rw [WriterApi.writeChunks, ih]
    simp [frameWriter]

theorem frameWriter_stream (chunks : List Bytes) :
    frameWriter.stream ([], []) chunks = 90 :: chunks.flatten := by
  rw [WriterApi.stream, frameWriter_writeChunks]
  simp [frameWriter]

theorem frameNewWriterLevel_ok {l : Int} (hl : l ∈ [HuffmanOnly, 1, 3, 5, 7, 9]) :
    frameNewWriterLevel l = .ok ([], []) := by
  simp only [List.mem_cons, List.mem_singleton, List.not_mem_nil, or_false] at hl
  rcases hl with h | h | h | h | h | h <;> subst h <;> rfl

theorem frameLib_lossless : frameLib.Lossless := by
  refine ⟨?_, ?_, ?_, ?_, ?_, ?_, ?_, ?_⟩
  · intro l hl chunks
    refine ⟨([], []), chunks.flatten, frameNewWriterLevel_ok hl, ?_, rfl⟩
    show unframe (frameWriter.stream ([], []) chunks) = _
    rw [frameWriter_stream]
    rfl
  · intro l hl chunks
    refine ⟨([], []), chunks.flatten, frameNewWriterLevel_ok hl, ?_, rfl⟩
    show unframe (frameWriter.stream ([], []) chunks) = _
    rw [frameWriter_stream]
    rfl
  · intro o _ lw _ chunks
    show (lazyFrameReader.readFrom (frameWriter.stream ([], []) chunks)).2.1 = _
    rw [frameWriter_stream]
    rfl
  · intro l hl chunks
    refine ⟨([], []), frameNewWriterLevel_ok hl, ?_⟩
    show (lazyFrameReader.readFrom (frameWriter.stream ([], []) chunks)).2.1 = _
    rw [frameWriter_stream]
    rfl
  · intro l _ b _ chunks
    refine ⟨([], []), rfl, ?_⟩
    show (lazyFrameReader.readFrom (frameWriter.stream ([], []) chunks)).2.1 = _
    rw [frameWriter_stream]
    rfl
  · intro chunks
    refine ⟨([], []), chunks.flatten, rfl, ?_, rfl⟩
    show unframe (frameWriter.stream ([], []) chunks) = _
    rw [frameWriter_stream]
    rfl
  · intro chunks
    refine ⟨([], []), chunks.flatten, rfl, ?_, rfl⟩
    show unframe (frameWriter.stream ([], []) chunks) = _
    rw [frameWriter_stream]
    rfl
  · intro chunks
    show (lazyFrameReader.readFrom (frameWriter.stream ([], []) chunks)).2.1 = _
    rw [frameWriter_stream]
    rfl

theorem render_header (ff : F64 → String) (n : Nat) :
    render ff "Original size: %dkb\n" [.int n] = "Original size: " ++ toString n ++ "kb\n" := by
  simp only [String.append_assoc]
  rfl

theorem render_ratio (ff : F64 → String) (t : Trial) (data c : Bytes) :
    render ff (ratioFormat t) (ratioArgs t data c)
      = t.label ++ " compressed size: " ++ toString (c.length / 1024)
        ++ "kb; compression coefficient: "
        ++ ff (.div (.ofInt data.length) (.ofInt c.length)) ++ "\n" := by
  cases t <;> simp only [Trial.label, String.append_assoc] <;> rfl

theorem render_compressTime (ff : F64 → String) (t : Trial) (b e : Int) :
    render ff (compressTimeFormat t) (timeArgs t b e)
      = t.label ++ " average compression time: "
        ++ ff (.div (.seconds (e - b)) (.ofInt 10)) ++ "s\n" := by
  cases t <;> simp only [Trial.label, String.append_assoc] <;> rfl

theorem render_decompressTime (ff : F64 → String) (t : Trial) (b e : Int) :
    render ff (decompressTimeFormat t) (timeArgs t b e)
      = t.label ++ " average decompression time: "
        ++ ff (.div (.seconds (e - b)) (.ofInt 10)) ++ "s\n" := by
  cases t <;> simp only [Trial.label, String.append_assoc] <;> rfl

theorem mem_output (ff : F64 → String) (line : String) (tr : List Event) :
    line ∈ output ff tr ↔ ∃ format args, .printf format args ∈ tr
      ∧ line = render ff format args := by
  induction tr with
  | nil => simp [output]
  | cons ev tr ih =>
    cases ev with
    | printf f a =>
      simp only [output, List.mem_cons, ih]
      constructor
      · rintro (h | ⟨f', a', hmem, h⟩)
        · exact ⟨f, a, Or.inl rfl, h⟩
        · exact ⟨f', a', Or.inr hmem, h⟩
      · rintro ⟨f', a', hmem | hmem, h⟩
        · cases hmem; exact Or.inl h
        · exact Or.inr ⟨f', a', hmem, h⟩
    | compress c ps d => simp [output, ih]
    | decompress c ps d => simp [output, ih]
    | now t => simp [output, ih]

theorem bind_trace_mem {α β : Type} (x : Run α) (f : α → Run β) (k : Nat) (ev : Event)
    (h : ev ∈ (Run.bind x f k).trace) :
    ev ∈ (x k).trace ∨ ∃ a k', ev ∈ (f a k').trace := by
  cases hres : (x k).result with
  | error p =>
    rw [Run.bind_apply_error hres] at h
    exact Or.inl h
  | ok a =>
    rw [Run.bind_apply_ok hres] at h
    rcases List.mem_append.mp h with h | h
    · exact Or.inl h
    · exact Or.inr ⟨a, _, h⟩

theorem forEach_trace_mem {α : Type} (xs : List α) (f : α → Run Unit) (k : Nat) (ev : Event)
    (h : ev ∈ (forEach xs f k).trace) : ∃ x ∈ xs, ∃ k', ev ∈ (f x k').trace := by
  induction xs generalizing k with
  | nil => simp [forEach, Run.pure] at h
  | cons x xs ih =>
    rw [forEach] at h
    rcases bind_trace_mem _ _ k ev h with h | ⟨_, k', h⟩
    · exact ⟨x, List.mem_cons_self x xs, k, h⟩
    · obtain ⟨y, hy, k'', h'⟩ := ih k' h
      exact ⟨y, List.mem_cons_of_mem x hy, k'', h'⟩

theorem coefTrial_printf_mem (L : Lib) (data : Bytes) (t : Trial) (k : Nat) (format : String)
    (args : List Arg) (h : .printf format args ∈ (coefTrial L data t k).trace) :
    ∃ c, format = ratioFormat t ∧ args = ratioArgs t data c := by
  rw [coefTrial_apply] at h
  cases hc : t.compress L data with
  | error p => rw [hc] at h; simp at h
  | ok c =>
    rw [hc] at h
    refine ⟨c, ?_⟩
    cases hd : t.decompress L c with
    | error p => simp [hd, coefEvents] at h; exact h
    | ok d => simp [hd, coefEvents] at h; exact h

theorem speedTrial_printf_mem (E : Env) (data : Bytes) (t : Trial) (k : Nat) (format : String)
    (args : List Arg) (h : .printf format args ∈ (speedTrial E data t k).trace) :
    ∃ b e, (format = compressTimeFormat t ∨ format = decompressTimeFormat t)
      ∧ args = timeArgs t b e := by
  rw [speedTrial_apply] at h
  cases hc : t.compress E.lib data with
  | error p => rw [hc] at h; simp at h
  | ok c =>
    rw [hc] at h
    cases hd : t.decompress E.lib c with
    | error p =>
      simp [hd, compressTiming, List.mem_replicate] at h
      exact ⟨_, _, Or.inl h.1, h.2⟩
    | ok d =>
      simp [hd, speedEvents, compressTiming, decompressTiming, List.mem_replicate] at h
      rcases h with h | h
      · exact ⟨_, _, Or.inl h.1, h.2⟩
      · exact ⟨_, _, Or.inr h.1, h.2⟩

/-! ## Theorems -/

/-- C1 (round trip): over codec libraries that keep their streaming contract
(`Lib.Lossless`, a statement about the libraries' constructors, `Write`, `Close` and
`ReadFrom` alone), each of the eight adapter pairs returns, for every declared parameter
combination and every byte buffer `x`, the buffer `x` from `decompress(compress(x, p), p)`;
neither adapter panics; and so the empty buffer comes back as the empty buffer in every
trial. -/
theorem round_trip (L : Lib) (h : L.Lossless) :
    (∀ l ∈ [HuffmanOnly, 1, 3, 5, 7, 9], ∀ x,
        ∃ c, compressZlib L x l = .ok c ∧ decompressZlib L c = .ok x)
      ∧ (∀ l ∈ [HuffmanOnly, 1, 3, 5, 7, 9], ∀ x,
        ∃ c, compressGzip L x l = .ok c ∧ decompressGzip L c = .ok x)
      ∧ (∀ o ∈ [lzwMSB, lzwLSB], ∀ lw ∈ [(8 : Int)], ∀ x,
        ∃ c, compressLzw L x o lw = .ok c ∧ decompressLzw L c o lw = .ok x)
      ∧ (∀ l ∈ [HuffmanOnly, 1, 3, 5, 7, 9], ∀ x,
        ∃ c, compressFlate L x l = .ok c ∧ decompressFlate L c = .ok x)
      ∧ (∀ l ∈ [lz4Fast, lz4Level1, lz4Level3, lz4Level5, lz4Level7, lz4Level9],
        ∀ b ∈ [lz4Block64Kb, lz4Block256Kb, lz4Block1Mb, lz4Block4Mb], ∀ x,
        ∃ c, compressLz4 L x l b = .ok c ∧ decompressLz4 L c = .ok x)
      ∧ (∀ x, ∃ c, compressLzma L x = .ok c ∧ decompressLzma L c = .ok x)
      ∧ (∀ x, ∃ c, compressLzma2 L x = .ok c ∧ decompressLzma2 L c = .ok x)
      ∧ (∀ x, ∃ c, compressSnappy L x = .ok c ∧ decompressSnappy L c = .ok x)
      ∧ ∀ t ∈ trials, ∃ c, t.compress L [] = .ok c ∧ t.decompress L c = .ok [] := by
  obtain ⟨hzlib, hgzip, hlzw, hflate, hlz4, hlzma, hlzma2, hsnappy⟩ := h
  have hflat : ∀ x : Bytes, [x].flatten = x := fun x => by simp
  have stream_singleton : ∀ (api : WriterApi) (w : api.State) (x : Bytes),
      api.stream w [x] = api.writeAll w x := fun _ _ _ => rfl
  have azlib : ∀ l ∈ [HuffmanOnly, 1, 3, 5, 7, 9], ∀ x,
      ∃ c, compressZlib L x l = .ok c ∧ decompressZlib L c = .ok x := by
    intro l hl x
    obtain ⟨w, r, hw, hr, hx⟩ := hzlib l hl [x]
    rw [stream_singleton] at hr
    rw [hflat] at hx
    refine ⟨L.zlibWriter.writeAll w x, ?_, ?_⟩
    · simp [compressZlib, hw]
    · simp [decompressZlib, hr, ReaderApi.readAll, hx]
  have agzip : ∀ l ∈ [HuffmanOnly, 1, 3, 5, 7, 9], ∀ x,
      ∃ c, compressGzip L x l = .ok c ∧ decompressGzip L c = .ok x := by
    intro l hl x
    obtain ⟨w, r, hw, hr, hx⟩ := hgzip l hl [x]
    rw [stream_singleton] at hr
    rw [hflat] at hx
    refine ⟨L.gzipWriter.writeAll w x, ?_, ?_⟩
    · simp [compressGzip, hw]
    · simp [decompressGzip, hr, ReaderApi.readAll, hx]
  have alzw : ∀ o ∈ [lzwMSB, lzwLSB], ∀ lw ∈ [(8 : Int)], ∀ x,
      ∃ c, compressLzw L x o lw = .ok c ∧ decompressLzw L c o lw = .ok x := by
    intro o ho lw hlw x
    have hx := hlzw o ho lw hlw [x]
    rw [stream_singleton, hflat] at hx
    refine ⟨_, rfl, ?_⟩
    simp [decompressLzw, ReaderApi.readAll, hx]
  have aflate : ∀ l ∈ [HuffmanOnly, 1, 3, 5, 7, 9], ∀ x,
      ∃ c, compressFlate L x l = .ok c ∧ decompressFlate L c = .ok x := by
    intro l hl x
    obtain ⟨w, hw, hx⟩ := hflate l hl [x]
    rw [stream_singleton, hflat] at hx
    refine ⟨L.flateWriter.writeAll w x, ?_, ?_⟩
    · simp [compressFlate, hw]
    · simp [decompressFlate, ReaderApi.readAll, hx]
  have alz4 : ∀ l ∈ [lz4Fast, lz4Level1, lz4Level3, lz4Level5, lz4Level7, lz4Level9],
      ∀ b ∈ [lz4Block64Kb, lz4Block256Kb, lz4Block1Mb, lz4Block4Mb], ∀ x,
      ∃ c, compressLz4 L x l b = .ok c ∧ decompressLz4 L c = .ok x := by
    intro l hl b hb x
    obtain ⟨w, hw, hx⟩ := hlz4 l hl b hb [x]
    rw [stream_singleton, hflat] at hx
    refine ⟨L.lz4Writer.writeAll w x, ?_, ?_⟩
    · simp [compressLz4, hw]
    · simp [decompressLz4, hx]
  have alzma : ∀ x, ∃ c, compressLzma L x = .ok c ∧ decompressLzma L c = .ok x := by
    intro x
    obtain ⟨w, r, hw, hr, hx⟩ := hlzma [x]
    rw [stream_singleton] at hr
    rw [hflat] at hx
    refine ⟨L.lzmaWriter.writeAll w x, ?_, ?_⟩
    · simp [compressLzma, hw]
    · simp [decompressLzma, hr, hx]
  have alzma2 : ∀ x, ∃ c, compressLzma2 L x = .ok c ∧ decompressLzma2 L c = .ok x := by
    intro x
    obtain ⟨w, r, hw, hr, hx⟩ := hlzma2 [x]
    rw [stream_singleton] at hr
    rw [hflat] at hx
    refine ⟨L.lzma2Writer.writeAll w x, ?_, ?_⟩
    · simp [compressLzma2, hw]
    · simp [decompressLzma2, hr, hx]
  have asnappy : ∀ x, ∃ c, compressSnappy L x = .ok c ∧ decompressSnappy L c = .ok x := by
    intro x
    have hx := hsnappy [x]
    rw [stream_singleton, hflat] at hx
    refine ⟨_, rfl, ?_⟩
    simp [decompressSnappy, hx]
  refine ⟨azlib, agzip, alzw, aflate, alz4, alzma, alzma2, asnappy, ?_⟩
  intro t ht
  simp only [trials, levels, lzwOrders, lzwWidths, lz4Levels, lz4Blocks, List.mem_append,
    List.mem_map, List.mem_flatMap] at ht
  rcases ht with ((((⟨l, hl, rfl⟩ | ⟨l, hl, rfl⟩) | ⟨o, ho, lw, hlw, rfl⟩) | ⟨l, hl, rfl⟩)
    | ⟨l, hl, b, hb, rfl⟩) | ht
  · exact azlib l hl []
  · exact agzip l hl []
  · exact alzw o ho lw hlw []
  · exact aflate l hl []
  · exact alz4 l hl b hb []
  · simp only [List.mem_cons, List.mem_singleton, List.not_mem_nil, or_false] at ht
    rcases ht with rfl | rfl | rfl
    · exact alzma []
    · exact alzma2 []
    · exact asnappy []

/-- Witness of C1: the framing library keeps the streaming contract, and over it the empty
buffer round-trips in every trial. In this library the compressed bytes differ from the input
(`[7, 9]` becomes the frame `[90, 7, 9]`, and only on `Close`), and the input itself is not
accepted by the decompress adapter. -/
theorem round_trip_witness :
    frameLib.Lossless
      ∧ (∀ t ∈ trials, ∃ c, t.compress frameLib [] = .ok c ∧ t.decompress frameLib c = .ok [])
      ∧ compressZlib frameLib [7, 9] 9 = .ok [90, 7, 9]
      ∧ decompressZlib frameLib [90, 7, 9] = .ok [7, 9]
      ∧ decompressZlib frameLib [7, 9] = .error (.err "invalid header") :=
  ⟨frameLib_lossless, (round_trip frameLib frameLib_lossless).2.2.2.2.2.2.2.2, rfl, rfl, rfl⟩

/-- C2 (enumeration order): when the ratio pass and the speed pass complete, the compress calls
of the ratio pass are those of the fixed 47-element list `fixedOrder`, one call per trial and
in that order, and the compress calls of the speed pass are those of the same list in the same
order, the eleven calls of a trial (ten timed, one for the sample) next to each other. The
list has no entry twice and mentions neither the input nor the libraries. -/
theorem enumeration_order (E : Env) (data : Bytes) (k k' : Nat)
    (hcoef : (compareCompressionCoefficients E.lib data k).result = .ok ())
    (hspeed : (compareCompressionSpeeds E data k').result = .ok ()) :
    compressCalls (compareCompressionCoefficients E.lib data k).trace
        = fixedOrder.map (fun t => (t.codec, t.params))
      ∧ compressCalls (compareCompressionSpeeds E data k').trace
        = fixedOrder.flatMap (fun t => List.replicate 11 (t.codec, t.params))
      ∧ fixedOrder.length = 47 ∧ fixedOrder.Nodup := by
  rw [← trials_eq]
  refine ⟨?_, ?_, rfl, by decide⟩
  · rw [compareCompressionCoefficients_apply] at hcoef ⊢
    simp only at hcoef ⊢
    have hall := (forEach_coef_ok_iff E.lib data trials k).mp hcoef
    rw [forEach_coef_ok E.lib data trials k hall]
    simp only [headerLine, compressCalls]
    exact compressCalls_coefTrace E.lib data trials
  · rw [compareCompressionSpeeds_eq] at hspeed ⊢
    have hall := (forEach_speed_ok_iff E data trials k').mp hspeed
    rw [forEach_speed_ok E data trials k' hall]
    exact compressCalls_speedTrace E data trials k'

/-- Witness of C2: both passes complete over the storing library on a two-byte input. -/
theorem enumeration_order_witness :
    compressCalls (compareCompressionCoefficients storeEnv.lib [7, 9] 0).trace
        = fixedOrder.map (fun t => (t.codec, t.params))
      ∧ compressCalls (compareCompressionSpeeds storeEnv [7, 9] 0).trace
        = fixedOrder.flatMap (fun t => List.replicate 11 (t.codec, t.params)) :=
  have h := enumeration_order storeEnv [7, 9] 0 0 (by rfl) (by rfl)
  ⟨h.1, h.2.1⟩

/-- C3 (ratio computation): the ratio pass starts with the header line, whose argument is the
input length divided by 1024 with truncation; and for a trial that is reached (the trials
before it round-trip) and whose compress adapter returns `c` with `0 < c.length`, the compress
call is followed at once by the trial's line, whose size argument is `c.length / 1024` with
truncation and whose coefficient is the `float64` quotient of the two byte lengths, of exact
value `data.length / c.length`. -/
theorem ratio_computation (L : Lib) (data : Bytes) (k : Nat) (pre : List Trial) (t : Trial)
    (post : List Trial) (c : Bytes) (hsplit : trials = pre ++ t :: post)
    (hpre : ∀ s ∈ pre, RoundTrips L data s) (hc : t.compress L data = .ok c)
    (hpos : 0 < c.length) :
    ∃ after, (compareCompressionCoefficients L data k).trace
        = [.printf "Original size: %dkb\n" [.int (data.length / 1024 : Nat)]]
          ++ coefTrace L data pre
          ++ [.compress t.codec t.params data,
            .printf (t.labelFormat ++ " compressed size: %dkb; compression coefficient: %.2f\n")
              (t.params.map .int ++ [.int (c.length / 1024 : Nat),
                .float (.div (.ofInt data.length) (.ofInt c.length))])]
          ++ after
      ∧ (F64.div (.ofInt data.length) (.ofInt c.length)).value
        = some ((data.length : ℚ) / (c.length : ℚ)) := by
  obtain ⟨after, htr, -⟩ := forEach_coef_cons L data t post k hc
  refine ⟨.decompress t.codec t.readParams c :: after, ?_, ?_⟩
  · rw [coef_split L data k pre t post hsplit hpre]
    simp only
    rw [htr]
    simp [headerLine, coefEvents, ratioFormat, ratioArgs]
  · have hne : c ≠ [] := List.ne_nil_of_length_pos hpos
    simp [F64.value, hne]

/-- Witness of C3: the trial lzw(MSB, 8) over the storing library on a two-byte input. -/
theorem ratio_computation_witness :
    ∃ after, (compareCompressionCoefficients storeLib [7, 9] 0).trace
        = [.printf "Original size: %dkb\n" [.int 0]]
          ++ coefTrace storeLib [7, 9] (trials.take 12)
          ++ [.compress .lzw [1, 8] [7, 9],
            .printf "lzw(%d, %d) compressed size: %dkb; compression coefficient: %.2f\n"
              [.int 1, .int 8, .int 0, .float (.div (.ofInt 2) (.ofInt 2))]]
          ++ after
      ∧ (F64.div (.ofInt 2) (.ofInt 2)).value = some ((2 : ℚ) / 2) :=
  ratio_computation storeLib [7, 9] 0 (trials.take 12) (.lzw lzwMSB 8) (trials.drop 13) [7, 9]
    (by decide) (fun s hs => storeLib_roundTrips _ s (List.mem_of_mem_take hs)) rfl (by decide)

/-- C4 (round-trip mismatch is fatal): in the ratio pass, if a trial is reached (the trials
before it round-trip), its adapters return and the decoded bytes differ from the input, then
the pass ends with the panic `<codec> decompression wrong` of that trial's codec and the
decompress call of that trial is the last event, so no later trial is run; and if every trial
round-trips, the pass completes. -/
theorem mismatch_is_fatal (L : Lib) (data : Bytes) (k : Nat) :
    (∀ pre t post c d, trials = pre ++ t :: post → (∀ s ∈ pre, RoundTrips L data s) →
        t.compress L data = .ok c → t.decompress L c = .ok d → d ≠ data →
        (compareCompressionCoefficients L data k).result
            = .error (.msg (t.codec.name ++ " decompression wrong"))
          ∧ (compareCompressionCoefficients L data k).trace
            = [headerLine data] ++ coefTrace L data pre
              ++ [.compress t.codec t.params data,
                .printf (ratioFormat t) (ratioArgs t data c),
                .decompress t.codec t.readParams c])
      ∧ ((∀ t ∈ trials, RoundTrips L data t) →
        (compareCompressionCoefficients L data k).result = .ok ()) := by
  constructor
  · intro pre t post c d hsplit hpre hc hd hne
    have hnot : ¬ t.decompress L c = .ok data := by
      rw [hd]; intro h; cases h; exact hne rfl
    obtain ⟨after, htr, hfail⟩ := forEach_coef_cons L data t post k hc
    obtain ⟨hafter, hres⟩ := hfail hnot
    rw [coef_split L data k pre t post hsplit hpre]
    simp only
    rw [hres, htr, hafter, coef_result_mismatch L data t k hc hd hne]
    simp [coefEvents]
  · intro hall
    rw [compareCompressionCoefficients_apply]
    exact (forEach_coef_ok_iff L data trials k).mpr hall

/-- Witness of C4: with a zlib reader that loses the last byte the pass ends in the first
trial; with the storing library it completes. -/
theorem mismatch_is_fatal_witness :
    (compareCompressionCoefficients truncLib [1] 0).result
        = .error (.msg "zlib decompression wrong")
      ∧ (compareCompressionCoefficients storeLib [1] 0).result = .ok () :=
  ⟨((mismatch_is_fatal truncLib [1] 0).1 [] (.zlib HuffmanOnly) trials.tail [1] [] rfl
      (by simp) rfl rfl (by decide)).1,
    (mismatch_is_fatal storeLib [1] 0).2 (storeLib_roundTrips [1])⟩

/-- C5 (speed computation): for a trial of the speed pass that is reached (the trials before
it complete) and whose adapters return, the events of the trial are: a clock reading `begin`,
exactly 10 compress calls on the input with the trial's parameters, a clock reading `end`,
and the `Printf` call whose time is the `float64` quotient of `(end - begin).Seconds()` by 10;
then one compress call; then a clock reading `begin`, exactly 10 decompress calls, a clock
reading `end`, and the `Printf` call whose time is the quotient of the seconds between these
two readings by 10. -/
theorem speed_computation (E : Env) (data : Bytes) (k : Nat) (pre : List Trial) (t : Trial)
    (post : List Trial) (c d : Bytes) (hsplit : trials = pre ++ t :: post)
    (hpre : ∀ s ∈ pre, Completes E.lib data s) (hc : t.compress E.lib data = .ok c)
    (hd : t.decompress E.lib c = .ok d) :
    (∃ after, (compareCompressionSpeeds E data k).trace
        = speedTrace E data pre k
          ++ ([.now (E.now (k + 4 * pre.length))]
            ++ List.replicate 10 (.compress t.codec t.params data)
            ++ [.now (E.now (k + 4 * pre.length + 1)),
              .printf (t.labelFormat ++ " average compression time: %.2fs\n")
                (t.params.map .int ++ [.float (.div
                  (.seconds (E.now (k + 4 * pre.length + 1) - E.now (k + 4 * pre.length)))
                  (.ofInt 10))])])
          ++ [.compress t.codec t.params data]
          ++ ([.now (E.now (k + 4 * pre.length + 2))]
            ++ List.replicate 10 (.decompress t.codec t.readParams c)
            ++ [.now (E.now (k + 4 * pre.length + 3)),
              .printf (t.labelFormat ++ " average decompression time: %.2fs\n")
                (t.params.map .int ++ [.float (.div
                  (.seconds (E.now (k + 4 * pre.length + 3) - E.now (k + 4 * pre.length + 2)))
                  (.ofInt 10))])])
          ++ after)
      ∧ ∀ b e : Int, (F64.div (.seconds (e - b)) (.ofInt 10)).value
          = some (((e - b : Int) : ℚ) / 1000000000 / 10) := by
  constructor
  · refine ⟨(forEach post (speedTrial E data) (k + 4 * pre.length + 4)).trace, ?_⟩
    rw [speed_split E data k pre t post c d hsplit hpre hc hd]
    simp [speedEvents, compressTiming, decompressTiming, compressTimeFormat,
      decompressTimeFormat, timeArgs, countMeasures, Nat.add_assoc]
  · intro b e
    simp [F64.value]

/-- Witness of C5: the trial lzw(MSB, 8) over the storing library, with the clock of
`storeEnv`: the compression readings are the 48th and 49th, 1000 ns apart. -/
theorem speed_computation_witness :
    (∃ after, (compareCompressionSpeeds storeEnv [7, 9] 0).trace
        = speedTrace storeEnv [7, 9] (trials.take 12) 0
          ++ ([.now (storeEnv.now (0 + 4 * (trials.take 12).length))]
            ++ List.replicate 10 (.compress .lzw [1, 8] [7, 9])
            ++ [.now (storeEnv.now (0 + 4 * (trials.take 12).length + 1)),
              .printf ("lzw(%d, %d)" ++ " average compression time: %.2fs\n")
                ([.int 1, .int 8] ++ [.float (.div
                  (.seconds (storeEnv.now (0 + 4 * (trials.take 12).length + 1)
                    - storeEnv.now (0 + 4 * (trials.take 12).length)))
                  (.ofInt 10))])])
          ++ [.compress .lzw [1, 8] [7, 9]]
          ++ ([.now (storeEnv.now (0 + 4 * (trials.take 12).length + 2))]
            ++ List.replicate 10 (.decompress .lzw [1, 8] [7, 9])
            ++ [.now (storeEnv.now (0 + 4 * (trials.take 12).length + 3)),
              .printf ("lzw(%d, %d)" ++ " average decompression time: %.2fs\n")
                ([.int 1, .int 8] ++ [.float (.div
                  (.seconds (storeEnv.now (0 + 4 * (trials.take 12).length + 3)
                    - storeEnv.now (0 + 4 * (trials.take 12).length + 2)))
                  (.ofInt 10))])])
          ++ after)
      ∧ ∀ b e : Int, (F64.div (.seconds (e - b)) (.ofInt 10)).value
          = some (((e - b : Int) : ℚ) / 1000000000 / 10) :=
  speed_computation storeEnv [7, 9] 0 (trials.take 12) (.lzw lzwMSB 8) (trials.drop 13)
    [7, 9] [7, 9] (by decide)
    (fun s hs => storeLib_completes _ s (List.mem_of_mem_take hs)) rfl rfl

/-- C6 (the sample): for a trial of the speed pass that is reached and whose adapters return,
the compressed sample `c` is the result of one compress call of the trial, on the input and
with the trial's parameters, made after the clock reading that ends the compression timing and
after its `Printf` call, and before the clock reading that starts the decompression timing;
between the two clock readings of the decompression timing there are exactly the 10
decompress calls, all on `c`, and no compress call. -/
theorem sample_between_timings (E : Env) (data : Bytes) (k : Nat) (pre : List Trial)
    (t : Trial) (post : List Trial) (c d : Bytes) (hsplit : trials = pre ++ t :: post)
    (hpre : ∀ s ∈ pre, Completes E.lib data s) (hc : t.compress E.lib data = .ok c)
    (hd : t.decompress E.lib c = .ok d) :
    (∃ before after, (compareCompressionSpeeds E data k).trace
        = before
          ++ [.now (E.now (k + 4 * pre.length + 1)),
            .printf (compressTimeFormat t)
              (timeArgs t (E.now (k + 4 * pre.length)) (E.now (k + 4 * pre.length + 1)))]
          ++ [.compress t.codec t.params data]
          ++ ([.now (E.now (k + 4 * pre.length + 2))]
            ++ List.replicate 10 (.decompress t.codec t.readParams c)
            ++ [.now (E.now (k + 4 * pre.length + 3))])
          ++ after)
      ∧ compressCalls ([.now (E.now (k + 4 * pre.length + 2))]
          ++ List.replicate 10 (.decompress t.codec t.readParams c)
          ++ [.now (E.now (k + 4 * pre.length + 3))]) = [] := by
  constructor
  · refine ⟨speedTrace E data pre k ++ ([.now (E.now (k + 4 * pre.length))]
        ++ List.replicate 10 (.compress t.codec t.params data)),
      .printf (decompressTimeFormat t)
          (timeArgs t (E.now (k + 4 * pre.length + 2)) (E.now (k + 4 * pre.length + 3)))
        :: (forEach post (speedTrial E data) (k + 4 * pre.length + 4)).trace, ?_⟩
    rw [speed_split E data k pre t post c d hsplit hpre hc hd]
    simp [speedEvents, compressTiming, decompressTiming, countMeasures, Nat.add_assoc]
  · simp [compressCalls_append, compressCalls_replicate_decompress, compressCalls]

/-- Witness of C6: the trial lzw(MSB, 8) over the storing library. -/
theorem sample_between_timings_witness :
    (∃ before after, (compareCompressionSpeeds storeEnv [7, 9] 5).trace
        = before
          ++ [.now (storeEnv.now (5 + 4 * (trials.take 12).length + 1)),
            .printf (compressTimeFormat (.lzw lzwMSB 8))
              (timeArgs (.lzw lzwMSB 8) (storeEnv.now (5 + 4 * (trials.take 12).length))
                (storeEnv.now (5 + 4 * (trials.take 12).length + 1)))]
          ++ [.compress .lzw [1, 8] [7, 9]]
          ++ ([.now (storeEnv.now (5 + 4 * (trials.take 12).length + 2))]
            ++ List.replicate 10 (.decompress .lzw [1, 8] [7, 9])
            ++ [.now (storeEnv.now (5 + 4 * (trials.take 12).length + 3))])
          ++ after)
      ∧ compressCalls ([.now (storeEnv.now (5 + 4 * (trials.take 12).length + 2))]
          ++ List.replicate 10 (.decompress .lzw [1, 8] [7, 9])
          ++ [.now (storeEnv.now (5 + 4 * (trials.take 12).length + 3))]) = [] :=
  sample_between_timings storeEnv [7, 9] 5 (trials.take 12) (.lzw lzwMSB 8) (trials.drop 13)
    [7, 9] [7, 9] (by decide)
    (fun s hs => storeLib_completes _ s (List.mem_of_mem_take hs)) rfl rfl

/-- Counterexample to C7 as stated: with a zlib reader that loses the last byte, the first
trial zlib(-2) fails its round trip on the input `[1]`, and its result line has been printed
all the same: the `Printf` call of the trial precedes the decompress call and the panic. -/
theorem ratio_line_before_check :
    (compareCompressionCoefficients truncLib [1] 0).result
        = .error (.msg "zlib decompression wrong")
      ∧ (compareCompressionCoefficients truncLib [1] 0).trace
        = [.printf "Original size: %dkb\n" [.int 0],
            .compress .zlib [-2] [1],
            .printf "zlib(%d) compressed size: %dkb; compression coefficient: %.2f\n"
              [.int (-2), .int 0, .float (.div (.ofInt 1) (.ofInt 1))],
            .decompress .zlib [] [1]]
      ∧ output oneFormat (compareCompressionCoefficients truncLib [1] 0).trace
        = ["Original size: 0kb\n",
            "zlib(-2) compressed size: 0kb; compression coefficient: 1.00\n"] := by
  refine ⟨rfl, rfl, rfl⟩

/-- C7, amended (ratio-pass step order): for a trial of the ratio pass that is reached and
whose compress adapter returns `c`, the events of the trial are, in this order, the compress
call, the `Printf` call of the result line, the decompress call; the compress call of the trial
occurs exactly once in the whole run; and if the decoded bytes differ from the input, the
decompress call is the last event and the pass ends with the panic, the result line of the
trial having been printed before. -/
theorem ratio_step_order (L : Lib) (data : Bytes) (k : Nat) (pre : List Trial) (t : Trial)
    (post : List Trial) (c : Bytes) (hsplit : trials = pre ++ t :: post)
    (hpre : ∀ s ∈ pre, RoundTrips L data s) (hc : t.compress L data = .ok c) :
    (∃ after, (compareCompressionCoefficients L data k).trace
        = [headerLine data] ++ coefTrace L data pre
          ++ [.compress t.codec t.params data,
            .printf (ratioFormat t) (ratioArgs t data c),
            .decompress t.codec t.readParams c]
          ++ after
        ∧ ∀ d, t.decompress L c = .ok d → d ≠ data →
          after = [] ∧ (compareCompressionCoefficients L data k).result
            = .error (.msg (t.codec.name ++ " decompression wrong")))
      ∧ (compressCalls (compareCompressionCoefficients L data k).trace).count
          (t.codec, t.params) = 1 := by
  obtain ⟨after, htr, hfail⟩ := forEach_coef_cons L data t post k hc
  have hsp := coef_split L data k pre t post hsplit hpre
  constructor
  · refine ⟨after, ?_, ?_⟩
    · rw [hsp]
      simp only
      rw [htr]
      simp [coefEvents]
    · intro d hd hne
      have hnot : ¬ t.decompress L c = .ok data := by
        rw [hd]; intro h; cases h; exact hne rfl
      obtain ⟨hafter, hres⟩ := hfail hnot
      refine ⟨hafter, ?_⟩
      rw [hsp]
      simp only
      rw [hres, coef_result_mismatch L data t k hc hd hne]
  · have hnd := trials_labels_nodup
    rw [hsplit, List.map_append, List.map_cons] at hnd
    have hnd' := List.nodup_append.mp hnd
    have hpost : (t.codec, t.params) ∉ post.map (fun t => (t.codec, t.params)) :=
      (List.nodup_cons.mp hnd'.2.1).1
    have hprem : (t.codec, t.params) ∉ pre.map (fun t => (t.codec, t.params)) := by
      intro hmem
      exact hnd'.2.2 hmem (List.mem_cons_self _ _)
    have hpfx := compressCalls_forEach_coef L data (t :: post) k
    rw [htr, compressCalls_append] at hpfx
    have hle := hpfx.sublist.count_le (t.codec, t.params)
    rw [hsp]
    simp only
    rw [htr]
    simp only [compressCalls_append, compressCalls_coefTrace, List.count_append,
      List.count_eq_zero_of_not_mem hprem]
    simp only [List.map_cons, List.count_cons_self, List.count_eq_zero_of_not_mem hpost,
      List.count_append, coefEvents, compressCalls, headerLine, List.count_nil] at hle ⊢
    omega

/-- Witness of C7, amended: the trial zlib(-2) with a zlib reader that loses the last byte. -/
theorem ratio_step_order_witness :
    (∃ after, (compareCompressionCoefficients truncLib [1] 0).trace
        = [headerLine [1]] ++ coefTrace truncLib [1] []
          ++ [.compress .zlib [-2] [1],
            .printf (ratioFormat (.zlib HuffmanOnly)) (ratioArgs (.zlib HuffmanOnly) [1] [1]),
            .decompress .zlib [] [1]]
          ++ after
        ∧ ∀ d, decompressZlib truncLib [1] = .ok d → d ≠ [1] →
          after = [] ∧ (compareCompressionCoefficients truncLib [1] 0).result
            = .error (.msg ("zlib" ++ " decompression wrong")))
      ∧ (compressCalls (compareCompressionCoefficients truncLib [1] 0).trace).count
          (.zlib, [-2]) = 1 :=
  ratio_step_order truncLib [1] 0 [] (.zlib HuffmanOnly) trials.tail [1] rfl (by simp) rfl

/-- Counterexample to C8 as stated: over the storing library on a two-byte input the ratio pass
prints the line `lzma compressed size: 0kb; compression coefficient: 1.00`, in which the codec
name is followed by a blank: the line is not of the form `<codec>(<params>) <rest>`, whatever
the three parts. -/
theorem lzma_line_without_parentheses :
    "lzma compressed size: 0kb; compression coefficient: 1.00\n"
        ∈ output oneFormat (compareCompressionCoefficients storeLib [7, 9] 0).trace
      ∧ ¬ ∃ codec params rest : String,
          "lzma compressed size: 0kb; compression coefficient: 1.00\n"
            = codec ++ "(" ++ params ++ ") " ++ rest := by
  constructor
  · decide
  · rintro ⟨codec, params, rest, h⟩
    have hmem : '(' ∈ (codec ++ "(" ++ params ++ ") " ++ rest).data := by
      simp [String.data_append]
    rw [← h] at hmem
    exact absurd hmem (by decide)

/-- C8, amended (output template): the first line of the ratio pass is
`Original size: <sizeKB>kb`; every other line of the ratio pass is a trial's label followed by
` compressed size: <sizeKB>kb; compression coefficient: <ratio>`, and every line of the speed
pass is a trial's label followed by ` average compression time: <seconds>s` or by
` average decompression time: <seconds>s`; the label is the codec name followed by the
parameters in parentheses for zlib, gzip, lzw, flate and lz4, and the bare codec name for
lzma, lzma2 and snappy. This holds for the lines of a pass that ends in a panic, too. -/
theorem output_template (ff : F64 → String) (E : Env) (data : Bytes) (k k' : Nat) :
    (∃ rest, output ff (compareCompressionCoefficients E.lib data k).trace
        = ("Original size: " ++ toString (data.length / 1024) ++ "kb\n") :: rest
      ∧ ∀ line ∈ rest, ∃ t ∈ trials, ∃ (n : Nat) (x : F64),
          line = t.label ++ " compressed size: " ++ toString n
            ++ "kb; compression coefficient: " ++ ff x ++ "\n")
      ∧ (∀ line ∈ output ff (compareCompressionSpeeds E data k').trace,
        ∃ t ∈ trials, ∃ x : F64,
          line = t.label ++ " average compression time: " ++ ff x ++ "s\n"
            ∨ line = t.label ++ " average decompression time: " ++ ff x ++ "s\n")
      ∧ (∀ l, (Trial.zlib l).label = "zlib(" ++ toString l ++ ")")
      ∧ (∀ l, (Trial.gzip l).label = "gzip(" ++ toString l ++ ")")
      ∧ (∀ o lw, (Trial.lzw o lw).label = "lzw(" ++ toString o ++ ", " ++ toString lw ++ ")")
      ∧ (∀ l, (Trial.flate l).label = "flate(" ++ toString l ++ ")")
      ∧ (∀ l b, (Trial.lz4 l b).label = "lz4(" ++ toString l ++ ", " ++ toString b ++ ")")
      ∧ Trial.lzma.label = "lzma" ∧ Trial.lzma2.label = "lzma2"
      ∧ Trial.snappy.label = "snappy" := by
  refine ⟨?_, ?_, fun _ => rfl, fun _ => rfl, fun _ _ => rfl, fun _ => rfl, fun _ _ => rfl,
    rfl, rfl, rfl⟩
  · refine ⟨output ff (forEach trials (coefTrial E.lib data) k).trace, ?_, ?_⟩
    · rw [compareCompressionCoefficients_apply]
      simp only [headerLine, output]
      rw [render_header]
    · intro line hline
      obtain ⟨format, args, hmem, hrender⟩ := (mem_output ff line _).mp hline
      obtain ⟨t, ht, k'', hev⟩ := forEach_trace_mem _ _ _ _ hmem
      obtain ⟨c, hf, ha⟩ := coefTrial_printf_mem E.lib data t k'' format args hev
      refine ⟨t, ht, c.length / 1024, .div (.ofInt data.length) (.ofInt c.length), ?_⟩
      rw [hrender, hf, ha, render_ratio]
  · intro line hline
    rw [compareCompressionSpeeds_eq] at hline
    obtain ⟨format, args, hmem, hrender⟩ := (mem_output ff line _).mp hline
    obtain ⟨t, ht, k'', hev⟩ := forEach_trace_mem _ _ _ _ hmem
    obtain ⟨b, e, hf, ha⟩ := speedTrial_printf_mem E data t k'' format args hev
    refine ⟨t, ht, .div (.seconds (e - b)) (.ofInt 10), ?_⟩
    rcases hf with hf | hf
    · left
      rw [hrender, hf, ha, render_compressTime]
    · right
      rw [hrender, hf, ha, render_decompressTime]

/-- C9 (driver): `main` reads the fixed path `./test.wasm`; if the read fails it panics with
the read error and produces no event; if the read succeeds it runs the ratio pass on the bytes
read and, only when that pass completed, the speed pass on the same bytes, the events of the
ratio pass coming first. -/
theorem driver (E : Env) (k : Nat) :
    main E k =
      match E.readFile "./test.wasm" with
      | .error err => ⟨[], k, .error (.err err)⟩
      | .ok data =>
        match (compareCompressionCoefficients E.lib data k).result with
        | .error p => ⟨(compareCompressionCoefficients E.lib data k).trace,
            (compareCompressionCoefficients E.lib data k).ticks, .error p⟩
        | .ok _ =>
          ⟨(compareCompressionCoefficients E.lib data k).trace
              ++ (compareCompressionSpeeds E data
                (compareCompressionCoefficients E.lib data k).ticks).trace,
            (compareCompressionSpeeds E data
              (compareCompressionCoefficients E.lib data k).ticks).ticks,
            (compareCompressionSpeeds E data
              (compareCompressionCoefficients E.lib data k).ticks).result⟩ := by
  unfold main
  cases hread : E.readFile "./test.wasm" with
  | error err => rfl
  | ok data =>
    simp only [Run.bind_def]
    cases hres : (compareCompressionCoefficients E.lib data k).result with
    | error p => simp [Run.bind_apply_error hres]
    | ok u => simp [Run.bind_apply_ok hres]

/-- C10 (adapter failure): an adapter whose library constructor can return an `error`
(compress for zlib, gzip, flate, lzma, lzma2, and lz4 through `Apply`; decompress for zlib,
gzip, lzma, lzma2) panics exactly when that step reports an error, and then with that error;
the errors of `Write`, `Close` and `ReadFrom` never make an adapter panic. `decompressLzw`,
`decompressFlate`, `decompressLz4` and `decompressSnappy` return, for every input, the bytes
that `ReadFrom` put into the buffer, whatever error it reported, and `compressLzw` and
`compressSnappy` always return. -/
theorem adapter_failure (L : Lib) (data : Bytes) :
    (∀ level p, compressZlib L data level = .error p
        ↔ ∃ e, L.zlibNewWriterLevel level = .error e ∧ p = .err e)
      ∧ (∀ p, decompressZlib L data = .error p
        ↔ ∃ e, L.zlibNewReader data = .error e ∧ p = .err e)
      ∧ (∀ level p, compressGzip L data level = .error p
        ↔ ∃ e, L.gzipNewWriterLevel level = .error e ∧ p = .err e)
      ∧ (∀ p, decompressGzip L data = .error p
        ↔ ∃ e, L.gzipNewReader data = .error e ∧ p = .err e)
      ∧ (∀ level p, compressFlate L data level = .error p
        ↔ ∃ e, L.flateNewWriter level = .error e ∧ p = .err e)
      ∧ (∀ level block p, compressLz4 L data level block = .error p
        ↔ ∃ e, (L.lz4Apply L.lz4NewWriter level block).2 = some e ∧ p = .err e)
      ∧ (∀ p, compressLzma L data = .error p ↔ ∃ e, L.lzmaNewWriter = .error e ∧ p = .err e)
      ∧ (∀ p, decompressLzma L data = .error p
        ↔ ∃ e, L.lzmaNewReader data = .error e ∧ p = .err e)
      ∧ (∀ p, compressLzma2 L data = .error p ↔ ∃ e, L.lzmaNewWriter2 = .error e ∧ p = .err e)
      ∧ (∀ p, decompressLzma2 L data = .error p
        ↔ ∃ e, L.lzmaNewReader2 data = .error e ∧ p = .err e)
      ∧ (∀ order litWidth, decompressLzw L data order litWidth
        = .ok (L.lzwReader.readFrom (L.lzwNewReader data order litWidth)).2.1)
      ∧ (decompressFlate L data = .ok (L.flateReader.readFrom (L.flateNewReader data)).2.1)
      ∧ (decompressLz4 L data = .ok (L.lz4Reader.readFrom (L.lz4NewReader data)).2.1)
      ∧ (decompressSnappy L data
        = .ok (L.snappyReader.readFrom (L.snappyNewReader data)).2.1)
      ∧ (∀ order litWidth, ∃ out, compressLzw L data order litWidth = .ok out)
      ∧ (∃ out, compressSnappy L data = .ok out) := by
  refine ⟨?_, ?_, ?_, ?_, ?_, ?_, ?_, ?_, ?_, ?_, fun _ _ => rfl, rfl, rfl, rfl,
    fun _ _ => ⟨_, rfl⟩, ⟨_, rfl⟩⟩
  · intro level p
    unfold compressZlib
    cases L.zlibNewWriterLevel level <;> simp [eq_comm]
  · intro p
    unfold decompressZlib
    cases L.zlibNewReader data <;> simp [eq_comm]
  · intro level p
    unfold compressGzip
    cases L.gzipNewWriterLevel level <;> simp [eq_comm]
  · intro p
    unfold decompressGzip
    cases L.gzipNewReader data <;> simp [eq_comm]
  · intro level p
    unfold compressFlate
    cases L.flateNewWriter level <;> simp [eq_comm]
  · intro level block p
    unfold compressLz4
    rcases L.lz4Apply L.lz4NewWriter level block with ⟨w, _ | e⟩ <;> simp [eq_comm]
  · intro p
    unfold compressLzma
    cases L.lzmaNewWriter <;> simp [eq_comm]
  · intro p
    unfold decompressLzma
    cases L.lzmaNewReader data <;> simp [eq_comm]
  · intro p
    unfold compressLzma2
    cases L.lzmaNewWriter2 <;> simp [eq_comm]
  · intro p
    unfold decompressLzma2
    cases L.lzmaNewReader2 data <;> simp [eq_comm]

end CompressionBenchmark
